import Mathlib

/-!
Shallow embedding of `makeCoaddTempExp.py` (lsst pipe_tasks): the config
validation, the orchestrating `run` method and the per-visit accumulation
`createTempExp`, together with the external collaborators the spec
describes (merge primitive, grouping helper, coverage recorder,
persistence sink), modelled at the interface level.  Pixel values and
flux zero-points are rationals; a pixel is `some v` when it holds a
finite, unmasked value and `none` when it is in the NO_DATA state.
-/

namespace PipeTasks

/-- The two warp variants produced by the task, as listed by
`getWarpTypeList`: a direct warp and a PSF-matched warp. -/
inductive WarpType where
  | direct
  | psfMatched
deriving DecidableEq

/-- One row of the coverage table.  Modelled from the spec: the coverage
recorder (`coaddInputRecorder`, not under src/) appends, per contributing
calexp, the detector id, the count of good pixels it supplied and the
calibration snapshot of the source calexp. -/
structure CoaddInputRecord where
  ccdId : Nat
  numGoodPix : Nat
  fluxMag0 : ℚ
deriving DecidableEq

/-- The PSF attached to a canvas: either the PSF adopted from a
contributing exposure, or the composite CoaddPsf.  Modelled from the
spec: the PSF synthesis primitive is external, so the composite model is
represented symbolically by the finalized coverage table it is built
from. -/
inductive PsfModel where
  | exposurePsf (id : Nat)
  | coaddPsf (records : List CoaddInputRecord)
deriving DecidableEq

/-- A warped (optionally PSF-matched) exposure as returned by the
external WarpAndPsfMatch primitive for one variant.  A pixel is `some v`
when its value is finite and unmasked by the bad-pixel mask, `none`
otherwise.  The two fault flags model the error sites inside the
per-variant body, which sits in one try/except in `createTempExp`:
`mergeFault` is the external merge primitive raising (before any canvas
mutation), `recordFault` is the external coverage recorder raising in
addCalExp (after the merge, running-total and metadata updates). -/
structure WExposure where
  pixels : List (Option ℚ)
  fluxMag0 : ℚ
  filterId : Nat
  psfId : Nat
  mergeFault : Bool
  recordFault : Bool
deriving DecidableEq

/-- The source calexp metadata snapshot handed to the coverage
recorder. -/
structure CalExp where
  fluxMag0 : ℚ
deriving DecidableEq

/-- One iteration of the calexp loop of `createTempExp`, with the
responses of the external collaborators: the optional numeric ccd id
(the code falls back to the ordinal position in the group), the result
of loading the calexp (`none` means the load raised) and the result of
the external warp/PSF-match call (`none` means the call raised;
otherwise a dictionary from variant to optional warped exposure, as in
`warpedAndMatched.getDict()`). -/
structure CalExpInput where
  ccdIdOpt : Option Nat
  loadResult : Option CalExp
  warpResult : Option (WarpType → Option WExposure)

/-- The output exposure under construction for one (visit, variant)
pair: pixel plane (`none` = NO_DATA/NaN), calibration scalar, filter and
PSF. -/
structure Canvas where
  pixels : List (Option ℚ)
  fluxMag0 : ℚ
  filterId : Nat
  psf : PsfModel
deriving DecidableEq

/-- The per-variant mutable state of `createTempExp`: the running total
`totGoodPix`, the `didSetMetadata` flag, the canvas `coaddTempExps` entry
and the coverage table of the `inputRecorder` entry. -/
structure VariantState where
  totGoodPix : Nat
  didSetMetadata : Bool
  coaddTempExp : Canvas
  records : List CoaddInputRecord
deriving DecidableEq

/-- The configuration fields of `MakeCoaddTempExpConfig` that the
embedded code reads (`doPsfMatch` is inherited from the base config). -/
structure Config where
  makeDirect : Bool
  makePsfMatched : Bool
  doPsfMatch : Bool
  doWrite : Bool
  doOverwrite : Bool
  bgSubtracted : Bool
deriving DecidableEq

/-- Raised errors that cross component boundaries. -/
inductive PipeError where
  | invalidConfiguration
  | emptyInput
deriving DecidableEq

/-- `MakeCoaddTempExpConfig.validate`: raises when neither variant is
requested, then translates the deprecated `doPsfMatch` flag into
"psf-matched only".  The returned Bool records whether the deprecation
warning was emitted. -/
def Config.validate (c : Config) : Except PipeError (Config × Bool) :=
  if c.makePsfMatched = false ∧ c.makeDirect = false then
    Except.error PipeError.invalidConfiguration
  else if c.doPsfMatch then
    Except.ok ({ c with makePsfMatched := true, makeDirect := false }, true)
  else
    Except.ok (c, false)

/-- `MakeCoaddTempExpTask.getWarpTypeList`. -/
def getWarpTypeList (c : Config) : List WarpType :=
  (if c.makeDirect then [WarpType.direct] else []) ++
    (if c.makePsfMatched then [WarpType.psfMatched] else [])

/-- `MakeCoaddTempExpTask._prepareEmptyExposure`: a patch-sized exposure
with every pixel NO_DATA.  Calibration, filter and PSF hold the defaults
of a freshly constructed exposure; the code never reads them before
`didSetMetadata` is set. -/
def prepareEmptyExposure (npix : Nat) : Canvas :=
  { pixels := List.replicate npix none, fluxMag0 := 0, filterId := 0,
    psf := PsfModel.exposurePsf 0 }

/-- Modelled from the spec: `lsst.coadd.utils.copyGoodPixels` (external
library primitive).  For every pixel where the incoming value is good
and the canvas pixel is still NO_DATA, the incoming value is copied;
the second component counts the pixels copied. -/
def copyGoodPixels : List (Option ℚ) → List (Option ℚ) → List (Option ℚ) × Nat
  | ds, [] => (ds, 0)
  | [], _ :: _ => ([], 0)
  | d :: ds, s :: ss =>
    let r := copyGoodPixels ds ss
    match d, s with
    | none, some v => (some v :: r.1, r.2 + 1)
    | none, none => (none :: r.1, r.2)
    | some w, _ => (some w :: r.1, r.2)

/-- In-place rescaling `mimg *= r` of a masked image: every good pixel
value is multiplied by `r`. -/
def scalePixels (r : ℚ) (ps : List (Option ℚ)) : List (Option ℚ) :=
  ps.map (Option.map (fun v => v * r))

/-- The body of the per-warp-type inner loop of `createTempExp` for one
variant of one calexp: skip a missing variant, rescale by the ratio of
the adopted zero-point to the exposure zero-point once metadata is set,
merge good pixels, update the running total, adopt metadata from the
first exposure with a newly contributed good pixel, and append the
coverage record.  `Except.error s` models one of the external calls of
the body raising, with `s` the per-variant state as mutated in place
before the raise: a merge-primitive raise leaves the state untouched,
while a recorder raise in addCalExp strikes after the merge,
running-total and metadata updates but before the record append. -/
def processVariant (calExp : CalExp) (ccdId : Nat) (exposureOpt : Option WExposure)
    (st : VariantState) : Except VariantState VariantState :=
  match exposureOpt with
  | none => Except.ok st
  | some exposure0 =>
    let exposure :=
      if st.didSetMetadata then
        { exposure0 with
            pixels :=
              scalePixels (st.coaddTempExp.fluxMag0 / exposure0.fluxMag0) exposure0.pixels }
      else exposure0
    if exposure.mergeFault then Except.error st else
    let cp := copyGoodPixels st.coaddTempExp.pixels exposure.pixels
    let st1 : VariantState :=
      { st with coaddTempExp := { st.coaddTempExp with pixels := cp.1 },
                totGoodPix := st.totGoodPix + cp.2 }
    let st2 : VariantState :=
      if 0 < cp.2 ∧ st1.didSetMetadata = false then
        { st1 with
            coaddTempExp := { st1.coaddTempExp with
              fluxMag0 := exposure.fluxMag0,
              filterId := exposure.filterId,
              psf := PsfModel.exposurePsf exposure.psfId },
            didSetMetadata := true }
      else st1
    if exposure.recordFault then Except.error st2 else
    Except.ok { st2 with records := st2.records ++ [⟨ccdId, cp.2, calExp.fluxMag0⟩] }

/-- Pointwise update of the per-variant state dictionary. -/
def updateState (sts : WarpType → VariantState) (wt : WarpType) (s : VariantState) :
    WarpType → VariantState :=
  fun w => if w = wt then s else sts w

/-- The `for warpType in warpTypeList` loop of `createTempExp`, wrapped
in a single try/except: an error while processing one variant abandons
the remaining variants of this calexp but keeps every mutation already
made — both the earlier variants in full and the in-place mutations the
failing variant performed before the raise. -/
def variantLoop (calExp : CalExp) (ccdId : Nat) (warped : WarpType → Option WExposure) :
    List WarpType → (WarpType → VariantState) → (WarpType → VariantState)
  | [], sts => sts
  | wt :: rest, sts =>
    match processVariant calExp ccdId (warped wt) (sts wt) with
    | Except.ok s => variantLoop calExp ccdId warped rest (updateState sts wt s)
    | Except.error s => updateState sts wt s

/-- One iteration of the outer calexp loop of `createTempExp`: resolve
the ccd id (falling back to the ordinal position), skip the calexp when
the load or the warp/PSF-match call raised, otherwise run the per-variant
loop. -/
def processCalExp (warpTypes : List WarpType) (calExpInd : Nat) (inp : CalExpInput)
    (sts : WarpType → VariantState) : WarpType → VariantState :=
  match inp.loadResult with
  | none => sts
  | some calExp =>
    match inp.warpResult with
    | none => sts
    | some warped => variantLoop calExp (inp.ccdIdOpt.getD calExpInd) warped warpTypes sts

/-- The outer calexp loop of `createTempExp`, carrying the enumeration
index used as the ccd id fallback. -/
def accumulateFrom (warpTypes : List WarpType) :
    Nat → List CalExpInput → (WarpType → VariantState) → (WarpType → VariantState)
  | _, [], sts => sts
  | i, inp :: rest, sts =>
    accumulateFrom warpTypes (i + 1) rest (processCalExp warpTypes i inp sts)

/-- The initial per-variant state of `createTempExp`: zero running
total, metadata not set, an empty canvas and an empty coverage table. -/
def initialStates (npix : Nat) : WarpType → VariantState :=
  fun _ => { totGoodPix := 0, didSetMetadata := false,
             coaddTempExp := prepareEmptyExposure npix, records := [] }

/-- The accumulation phase of `createTempExp` over a visit group. -/
def accumulate (cfg : Config) (npix : Nat) (inputs : List CalExpInput) :
    WarpType → VariantState :=
  accumulateFrom (getWarpTypeList cfg) 0 inputs (initialStates npix)

/-- The finalization of one variant at the end of `createTempExp`: with
no good pixel the canvas is discarded (`none`); otherwise the coverage
table is finalized and, for the direct variant only, the PSF is replaced
by the composite CoaddPsf built from that table. -/
def finalizeVariant (wt : WarpType) (st : VariantState) : Option Canvas :=
  if 0 < st.totGoodPix ∧ st.didSetMetadata = true then
    some (if wt = WarpType.direct then
            { st.coaddTempExp with psf := PsfModel.coaddPsf st.records }
          else st.coaddTempExp)
  else none

/-- `MakeCoaddTempExpTask.createTempExp`: the dictionary from requested
warp type to the finalized canvas (or `none` when the variant ended with
zero contributed pixels). -/
def createTempExp (cfg : Config) (npix : Nat) (inputs : List CalExpInput) :
    List (WarpType × Option Canvas) :=
  (getWarpTypeList cfg).map
    (fun wt => (wt, finalizeVariant wt (accumulate cfg npix inputs wt)))

/-- The warped exposure the per-variant loop sees for `wt` from this
calexp: present only when both the load and the warp call succeeded. -/
def avail (inp : CalExpInput) (wt : WarpType) : Option WExposure :=
  match inp.loadResult, inp.warpResult with
  | some _, some w => w wt
  | _, _ => none

/-- The warped exposures of variant `wt` contributed by a group, in
group order, with skipped calexps removed. -/
def warpedList (wt : WarpType) (inputs : List CalExpInput) : List WExposure :=
  inputs.filterMap (fun inp => avail inp wt)

/-- Whether a warped exposure has a good (finite, unmasked) value at
pixel `p`. -/
def goodAtB (e : WExposure) (p : Nat) : Bool :=
  ((e.pixels.get? p).getD none).isSome

/-- Whether a warped exposure has at least one good pixel. -/
def hasGoodB (e : WExposure) : Bool :=
  e.pixels.any (fun px => px.isSome)

/-- The predicate "has a good value at pixel p", in the argument order
used with find?. -/
def goodAt (p : Nat) (e : WExposure) : Bool :=
  goodAtB e p

/-- A well-behaved warped exposure: neither the external merge primitive
nor the external coverage recorder raises on it, it is aligned with the
patch pixel grid, and its flux zero-point is nonzero. -/
def cleanExpB (npix : Nat) : Option WExposure → Bool
  | none => true
  | some e =>
    !e.mergeFault && !e.recordFault && (e.pixels.length == npix) && decide (e.fluxMag0 ≠ 0)

/-- A calexp input all of whose available warped variants are
well-behaved. -/
def cleanInputB (npix : Nat) (inp : CalExpInput) : Bool :=
  cleanExpB npix (avail inp WarpType.direct) && cleanExpB npix (avail inp WarpType.psfMatched)

/-- All inputs of a group are well-behaved. -/
def cleanInputsB (npix : Nat) (inputs : List CalExpInput) : Bool :=
  inputs.all (cleanInputB npix)

/-- Characterization of the final value of canvas pixel `p` as the
accumulation scans the remaining inputs, given the current
`didSetMetadata` flag and the currently adopted zero-point. -/
def contPixel (wt : WarpType) (p : Nat) : Bool → ℚ → List CalExpInput → Option ℚ
  | _, _, [] => none
  | ds, zpA, inp :: rest =>
    match avail inp wt with
    | none => contPixel wt p ds zpA rest
    | some e =>
      match e.pixels.get? p with
      | some (some v) => some (if ds then v * (zpA / e.fluxMag0) else v)
      | _ =>
        contPixel wt p (ds || hasGoodB e)
          (if ds then zpA else if hasGoodB e then e.fluxMag0 else zpA) rest

/-- The invariant the accumulation maintains per variant: the canvas
keeps the patch size, and until metadata is adopted every pixel is still
NO_DATA. -/
def StInv (npix : Nat) (st : VariantState) : Prop :=
  st.coaddTempExp.pixels.length = npix ∧
    (st.didSetMetadata = false → ∀ px ∈ st.coaddTempExp.pixels, px = none)

/-- A candidate exposure reference as the orchestrator sees it: the
grouping key of its visit (also used as the output identity of that
visit), whether its calexp dataset exists, and the responses of the
external collaborators for the accumulation phase.  Modelled from the
spec for the catalog/selector interface. -/
structure CandidateRef where
  visitKey : Nat
  calexpExists : Bool
  payload : CalExpInput

/-- Modelled from the spec: one insertion step of `groupPatchExposures`
(coaddHelpers, not under src/): references sharing a key are appended to
the existing group, new keys are appended in first-seen order. -/
def insertGrouped (gs : List (Nat × List CalExpInput)) (k : Nat) (x : CalExpInput) :
    List (Nat × List CalExpInput) :=
  match gs with
  | [] => [(k, [x])]
  | (k0, xs) :: rest =>
    if k0 = k then (k0, xs ++ [x]) :: rest else (k0, xs) :: insertGrouped rest k x

/-- Modelled from the spec: the partition built by `groupPatchExposures`:
an ordered mapping from grouping key to the references sharing it, keys
in first-seen order. -/
def groupRefs (rs : List CandidateRef) : List (Nat × List CalExpInput) :=
  rs.foldl (fun gs r => insertGrouped gs r.visitKey r.payload) []

/-- Modelled from the spec: `groupPatchExposures` fails with
EmptyInputError when its input sequence is empty. -/
def groupPatchExposures (rs : List CandidateRef) :
    Except PipeError (List (Nat × List CalExpInput)) :=
  if rs.isEmpty then Except.error PipeError.emptyInput else Except.ok (groupRefs rs)

/-- The persistence sink interface: whether a dataset with a given
output identity and warp type exists.  Modelled from the spec for the
butler interface. -/
def Sink : Type := Nat → WarpType → Bool

/-- The dataset type whose existence the overwrite check queries:
psf-matched only when that is the only requested variant, otherwise
direct. -/
def primaryWarpType (c : Config) : WarpType :=
  if c.makePsfMatched = true ∧ c.makeDirect = false then WarpType.psfMatched
  else WarpType.direct

/-- The sink after the `doWrite` loop persisted every non-absent variant
canvas of one visit. -/
def persistAll (s : Sink) (key : Nat) (exps : List (WarpType × Option Canvas)) : Sink :=
  fun k w =>
    (decide (k = key) && exps.any (fun q => decide (q.1 = w) && q.2.isSome)) || s k w

/-- The observable state of one `run` invocation: the returned data
reference list, the visits for which `createTempExp` was invoked, and
the persistence sink. -/
structure RunState where
  manifest : List Nat
  warped : List Nat
  sink : Sink

/-- One iteration of the per-visit loop of `run`: with overwrite
disabled and the primary warp already persisted the visit is recorded
and recomputation skipped; otherwise `createTempExp` runs, the visit is
recorded exactly when some variant is non-absent, and with `doWrite` the
non-absent variants are persisted. -/
def stepGroup (cfg : Config) (npix : Nat) (rs : RunState) (g : Nat × List CalExpInput) :
    RunState :=
  if cfg.doOverwrite = false ∧ rs.sink g.1 (primaryWarpType cfg) = true then
    { rs with manifest := rs.manifest ++ [g.1] }
  else
    { manifest :=
        if (createTempExp cfg npix g.2).any (fun q => q.2.isSome) then
          rs.manifest ++ [g.1]
        else rs.manifest,
      warped := rs.warped ++ [g.1],
      sink :=
        if cfg.doWrite then persistAll rs.sink g.1 (createTempExp cfg npix g.2)
        else rs.sink }

/-- The per-visit loop of `run` over the remaining groups. -/
def runGroupsFrom (cfg : Config) (npix : Nat) :
    List (Nat × List CalExpInput) → RunState → RunState
  | [], rs => rs
  | g :: gs, rs => runGroupsFrom cfg npix gs (stepGroup cfg npix rs g)

/-- The per-visit loop of `run`, started with an empty manifest. -/
def runGroups (cfg : Config) (npix : Nat) (groups : List (Nat × List CalExpInput))
    (sink : Sink) : RunState :=
  runGroupsFrom cfg npix groups { manifest := [], warped := [], sink := sink }

/-- `MakeCoaddTempExpTask.run`: with no candidate exposures at all the
method returns `None`; otherwise the candidates whose calexp exists are
grouped (EmptyInputError propagating) and the per-visit loop runs. -/
def run (cfg : Config) (npix : Nat) (candidates : List CandidateRef) (sink : Sink) :
    Except PipeError (Option RunState) :=
  if candidates.isEmpty then Except.ok none
  else
    match groupPatchExposures (candidates.filter (fun r => r.calexpExists)) with
    | Except.error e => Except.error e
    | Except.ok groups => Except.ok (some (runGroups cfg npix groups sink))

/-- The manifest delta contributed by one visit group, as a function of
whether its primary warp already exists. -/
def groupManifestD (cfg : Config) (npix : Nat) (b : Bool) (g : Nat × List CalExpInput) :
    List Nat :=
  if cfg.doOverwrite = false ∧ b = true then [g.1]
  else if (createTempExp cfg npix g.2).any (fun q => q.2.isSome) then [g.1] else []

/-- The warped-visit delta contributed by one visit group. -/
def groupWarpedD (cfg : Config) (b : Bool) (g : Nat × List CalExpInput) : List Nat :=
  if cfg.doOverwrite = false ∧ b = true then [] else [g.1]

/-- Whether one visit group persists a dataset of warp type `w` under
its own key, as a function of whether its primary warp already
exists. -/
def groupPersists (cfg : Config) (npix : Nat) (b : Bool) (g : Nat × List CalExpInput)
    (w : WarpType) : Bool :=
  if cfg.doOverwrite = false ∧ b = true then false
  else
    cfg.doWrite &&
      (createTempExp cfg npix g.2).any (fun q => decide (q.1 = w) && q.2.isSome)

/-- The sink after one visit group was handled starting from sink
`s`. -/
def stepSink (cfg : Config) (npix : Nat) (s : Sink) (g : Nat × List CalExpInput) : Sink :=
  if cfg.doOverwrite = false ∧ s g.1 (primaryWarpType cfg) = true then s
  else if cfg.doWrite then persistAll s g.1 (createTempExp cfg npix g.2) else s

/-- The deltas of the per-visit loop relative to its starting state:
manifest entries, warped visits, and final sink. -/
def runDelta (cfg : Config) (npix : Nat) :
    List (Nat × List CalExpInput) → Sink → List Nat × List Nat × Sink
  | [], s => ([], [], s)
  | g :: gs, s =>
    (groupManifestD cfg npix (s g.1 (primaryWarpType cfg)) g
        ++ (runDelta cfg npix gs (stepSink cfg npix s g)).1,
     groupWarpedD cfg (s g.1 (primaryWarpType cfg)) g
        ++ (runDelta cfg npix gs (stepSink cfg npix s g)).2.1,
     (runDelta cfg npix gs (stepSink cfg npix s g)).2.2)

/-- The merged per-variant state produced by one fault-free iteration of
the inner loop body on an available warped exposure. -/
def mergeStep (ce : CalExp) (ccd : Nat) (e : WExposure) (st : VariantState) : VariantState :=
  let exposure :=
    if st.didSetMetadata then
      { e with
          pixels := scalePixels (st.coaddTempExp.fluxMag0 / e.fluxMag0) e.pixels }
    else e
  let cp := copyGoodPixels st.coaddTempExp.pixels exposure.pixels
  let st1 : VariantState :=
    { st with coaddTempExp := { st.coaddTempExp with pixels := cp.1 },
              totGoodPix := st.totGoodPix + cp.2 }
  let st2 : VariantState :=
    if 0 < cp.2 ∧ st1.didSetMetadata = false then
      { st1 with
          coaddTempExp := { st1.coaddTempExp with
            fluxMag0 := exposure.fluxMag0,
            filterId := exposure.filterId,
            psf := PsfModel.exposurePsf exposure.psfId },
          didSetMetadata := true }
    else st1
  { st2 with records := st2.records ++ [⟨ccd, cp.2, ce.fluxMag0⟩] }

/-- The per-variant state after the merge, running-total and metadata
updates of the inner loop body, before the coverage record is appended:
the state the body leaves behind when the recorder raises in
addCalExp. -/
def mergePartial (e : WExposure) (st : VariantState) : VariantState :=
  let exposure :=
    if st.didSetMetadata then
      { e with
          pixels := scalePixels (st.coaddTempExp.fluxMag0 / e.fluxMag0) e.pixels }
    else e
  let cp := copyGoodPixels st.coaddTempExp.pixels exposure.pixels
  let st1 : VariantState :=
    { st with coaddTempExp := { st.coaddTempExp with pixels := cp.1 },
              totGoodPix := st.totGoodPix + cp.2 }
  if 0 < cp.2 ∧ st1.didSetMetadata = false then
    { st1 with
        coaddTempExp := { st1.coaddTempExp with
          fluxMag0 := exposure.fluxMag0,
          filterId := exposure.filterId,
          psf := PsfModel.exposurePsf exposure.psfId },
        didSetMetadata := true }
  else st1

/-- The pixel plane the merge primitive actually receives for one
variant of one calexp: rescaled by the ratio of the adopted zero-point
to the exposure zero-point once the canvas metadata is set, raw
otherwise. -/
def mergedSrc (e : WExposure) (st : VariantState) : List (Option ℚ) :=
  if st.didSetMetadata then
    scalePixels (st.coaddTempExp.fluxMag0 / e.fluxMag0) e.pixels
  else e.pixels

/-! ### Witness data: small concrete instances used by the witnesses. -/

/-- A configuration requesting only the direct variant. -/
def cfgDirect : Config :=
  { makeDirect := true, makePsfMatched := false, doPsfMatch := false,
    doWrite := true, doOverwrite := true, bgSubtracted := true }

/-- A configuration requesting both variants. -/
def cfgBoth : Config :=
  { makeDirect := true, makePsfMatched := true, doPsfMatch := false,
    doWrite := true, doOverwrite := true, bgSubtracted := true }

/-- A configuration with the legacy flag set and the direct variant
requested. -/
def cfgLegacy : Config :=
  { makeDirect := true, makePsfMatched := false, doPsfMatch := true,
    doWrite := true, doOverwrite := true, bgSubtracted := true }

/-- A calexp metadata snapshot. -/
def calExpW : CalExp := ⟨2⟩

/-- A calexp input whose external warp/PSF-match call raised. -/
def inpWarpFail : CalExpInput :=
  { ccdIdOpt := some 5, loadResult := some calExpW, warpResult := none }

/-- A fault-free warped exposure for the direct variant. -/
def expD : WExposure :=
  { pixels := [some 3, none], fluxMag0 := 2, filterId := 1, psfId := 4,
    mergeFault := false, recordFault := false }

/-- A warped exposure whose merge raises, for the psf-matched variant. -/
def expP : WExposure :=
  { pixels := [some 3, none], fluxMag0 := 2, filterId := 1, psfId := 4,
    mergeFault := true, recordFault := false }

/-- A warped exposure with a good pixel whose coverage recording raises,
for the psf-matched variant. -/
def expRecP : WExposure :=
  { pixels := [some 8, none], fluxMag0 := 2, filterId := 1, psfId := 4,
    mergeFault := false, recordFault := true }

/-- A warped exposure whose merge raises, for the direct variant. -/
def expMrgD : WExposure :=
  { pixels := [some 8, none], fluxMag0 := 2, filterId := 1, psfId := 4,
    mergeFault := true, recordFault := false }

/-- A warp result with a good direct entry and a merge-faulting
psf-matched entry. -/
def warpedBoth : WarpType → Option WExposure
  | WarpType.direct => some expD
  | WarpType.psfMatched => some expP

/-- A warp result with a good direct entry and a record-faulting
psf-matched entry. -/
def warpedRec : WarpType → Option WExposure
  | WarpType.direct => some expD
  | WarpType.psfMatched => some expRecP

/-- A warp result whose direct entry merge-faults while the psf-matched
entry is fault-free. -/
def warpedEarly : WarpType → Option WExposure
  | WarpType.direct => some expMrgD
  | WarpType.psfMatched => some expD

/-- A calexp input whose psf-matched merge raises after the direct merge
succeeded. -/
def inpFaultLater : CalExpInput :=
  { ccdIdOpt := some 7, loadResult := some calExpW, warpResult := some warpedBoth }

/-- A calexp input whose psf-matched coverage recording raises after the
psf-matched pixels were already merged. -/
def inpRecFault : CalExpInput :=
  { ccdIdOpt := some 3, loadResult := some calExpW, warpResult := some warpedRec }

/-- A calexp input whose direct merge raises before the psf-matched
variant is reached. -/
def inpEarlyFault : CalExpInput :=
  { ccdIdOpt := some 2, loadResult := some calExpW, warpResult := some warpedEarly }

/-- First contributing warped exposure: good only at pixel 0. -/
def wexpA : WExposure :=
  { pixels := [some 4, none], fluxMag0 := 2, filterId := 3, psfId := 5,
    mergeFault := false, recordFault := false }

/-- Second contributing warped exposure: good at both pixels, different
zero-point. -/
def wexpB : WExposure :=
  { pixels := [some 10, some 6], fluxMag0 := 4, filterId := 3, psfId := 6,
    mergeFault := false, recordFault := false }

/-- Calexp input contributing wexpA for every variant. -/
def inpA : CalExpInput :=
  { ccdIdOpt := some 11, loadResult := some ⟨2⟩, warpResult := some (fun _ => some wexpA) }

/-- Calexp input contributing wexpB for every variant. -/
def inpB : CalExpInput :=
  { ccdIdOpt := some 12, loadResult := some ⟨4⟩, warpResult := some (fun _ => some wexpB) }

/-- A two-exposure visit group. -/
def inputsAB : List CalExpInput := [inpA, inpB]

/-- An orchestrator state with nothing recorded and an empty sink. -/
def rsEmpty : RunState := { manifest := [], warped := [], sink := fun _ _ => false }

/-- A configuration with overwrite disabled. -/
def cfgNoOv : Config :=
  { makeDirect := true, makePsfMatched := false, doPsfMatch := false,
    doWrite := true, doOverwrite := false, bgSubtracted := true }

/-- A candidate exposure reference whose calexp exists. -/
def candW : CandidateRef :=
  { visitKey := 9, calexpExists := true, payload := inpWarpFail }

/-! ### Theorems. -/

theorem processCalExp_warpFail (warpTypes : List WarpType) (i : Nat) (inp : CalExpInput)
    (sts : WarpType → VariantState) (ce : CalExp)
    (hl : inp.loadResult = some ce) (hw : inp.warpResult = none) :
    processCalExp warpTypes i inp sts = sts := by
  simp [processCalExp, hl, hw]

theorem scaled_mergeFault (e : WExposure) (r : ℚ) :
    ({ e with pixels := scalePixels r e.pixels } : WExposure).mergeFault = e.mergeFault :=
  rfl

theorem processVariant_eq_mergeStep (ce : CalExp) (ccd : Nat) (e : WExposure)
    (st : VariantState) (hf : e.mergeFault = false) (hr : e.recordFault = false) :
    processVariant ce ccd (some e) st = Except.ok (mergeStep ce ccd e st) := by
  have hmf :
      (if st.didSetMetadata then
          { e with
              pixels := scalePixels (st.coaddTempExp.fluxMag0 / e.fluxMag0) e.pixels }
        else e).mergeFault = false := by
    split <;> simp [hf]
  have hrf :
      (if st.didSetMetadata then
          { e with
              pixels := scalePixels (st.coaddTempExp.fluxMag0 / e.fluxMag0) e.pixels }
        else e).recordFault = false := by
    split <;> simp [hr]
  simp only [processVariant, mergeStep, hmf, hrf, Bool.false_eq_true, if_false]

theorem processVariant_fault (ce : CalExp) (ccd : Nat) (e : WExposure)
    (st : VariantState) (hf : e.mergeFault = true) :
    processVariant ce ccd (some e) st = Except.error st := by
  have hmf :
      (if st.didSetMetadata then
          { e with
              pixels := scalePixels (st.coaddTempExp.fluxMag0 / e.fluxMag0) e.pixels }
        else e).mergeFault = true := by
    split <;> simp [hf]
  simp only [processVariant, hmf, if_true]

theorem processVariant_record_fault (ce : CalExp) (ccd : Nat) (e : WExposure)
    (st : VariantState) (hf : e.mergeFault = false) (hr : e.recordFault = true) :
    processVariant ce ccd (some e) st = Except.error (mergePartial e st) := by
  have hmf :
      (if st.didSetMetadata then
          { e with
              pixels := scalePixels (st.coaddTempExp.fluxMag0 / e.fluxMag0) e.pixels }
        else e).mergeFault = false := by
    split <;> simp [hf]
  have hrf :
      (if st.didSetMetadata then
          { e with
              pixels := scalePixels (st.coaddTempExp.fluxMag0 / e.fluxMag0) e.pixels }
        else e).recordFault = true := by
    split <;> simp [hr]
  simp only [processVariant, mergePartial, hmf, hrf, Bool.false_eq_true, if_false, if_true]

theorem mergePartial_records (e : WExposure) (st : VariantState) :
    (mergePartial e st).records = st.records := by
  simp only [mergePartial]
  split <;> split <;> rfl

theorem mergePartial_pixels (e : WExposure) (st : VariantState) :
    (mergePartial e st).coaddTempExp.pixels
      = (copyGoodPixels st.coaddTempExp.pixels (mergedSrc e st)).1 := by
  unfold mergePartial mergedSrc
  cases hds : st.didSetMetadata <;>
    simp only [hds] <;>
    rw [apply_ite (fun s : VariantState => s.coaddTempExp.pixels)] <;>
    simp

theorem mergePartial_totGoodPix (e : WExposure) (st : VariantState) :
    (mergePartial e st).totGoodPix
      = st.totGoodPix + (copyGoodPixels st.coaddTempExp.pixels (mergedSrc e st)).2 := by
  unfold mergePartial mergedSrc
  cases hds : st.didSetMetadata <;>
    simp only [hds] <;>
    rw [apply_ite (fun s : VariantState => s.totGoodPix)] <;>
    simp

theorem mergeStep_records (ce : CalExp) (ccd : Nat) (e : WExposure) (st : VariantState) :
    ∃ n, (mergeStep ce ccd e st).records = st.records ++ [⟨ccd, n, ce.fluxMag0⟩] := by
  simp only [mergeStep]
  split <;> split <;> exact ⟨_, rfl⟩

/-- C5: a configuration requesting neither the direct nor the
psf-matched variant is rejected by configuration validation with the
invalid-configuration error, before any processing: `validate` is a
function of the configuration alone. -/
theorem validate_requires_variant (c : Config) (h1 : c.makeDirect = false)
    (h2 : c.makePsfMatched = false) :
    c.validate = Except.error PipeError.invalidConfiguration := by
  simp [Config.validate, h1, h2]

theorem validate_requires_variant_witness :
    ({ makeDirect := false, makePsfMatched := false, doPsfMatch := false,
       doWrite := true, doOverwrite := true, bgSubtracted := true } : Config).validate
      = Except.error PipeError.invalidConfiguration :=
  validate_requires_variant _ rfl rfl

/-- C6 counterexample: with both explicit variant flags false and the
legacy `doPsfMatch` flag set, validation raises the
invalid-configuration error instead of translating the configuration to
"psf-matched only" with a deprecation warning — so the legacy override
does not happen for every combination of the two explicit flags. -/
theorem legacy_flag_counterexample :
    ({ makeDirect := false, makePsfMatched := false, doPsfMatch := true,
       doWrite := true, doOverwrite := true, bgSubtracted := true } : Config).validate
        = Except.error PipeError.invalidConfiguration
    ∧ ({ makeDirect := false, makePsfMatched := false, doPsfMatch := true,
         doWrite := true, doOverwrite := true, bgSubtracted := true } : Config).validate
        ≠ Except.ok
            (({ makeDirect := false, makePsfMatched := true, doPsfMatch := true,
                doWrite := true, doOverwrite := true, bgSubtracted := true } : Config), true) :=
  ⟨rfl, by simp [Config.validate]⟩

/-- C6 (amended): whenever the legacy `doPsfMatch` flag is set and at
least one explicit variant flag is true, validation translates the
configuration to "psf-matched only" (`makePsfMatched := true`,
`makeDirect := false`), overriding the explicit flags, and surfaces the
deprecation warning. -/
theorem legacy_flag_translation (c : Config) (hd : c.doPsfMatch = true)
    (h : c.makeDirect = true ∨ c.makePsfMatched = true) :
    c.validate = Except.ok ({ c with makePsfMatched := true, makeDirect := false }, true) := by
  rcases h with h | h <;> simp [Config.validate, hd, h]

theorem legacy_flag_translation_witness :
    cfgLegacy.validate
      = Except.ok ({ cfgLegacy with makePsfMatched := true, makeDirect := false }, true) :=
  legacy_flag_translation cfgLegacy rfl (Or.inl rfl)

/-- C9: validation checks the two explicit variant flags before applying
the legacy-flag override: with `makeDirect = false`,
`makePsfMatched = false` and `doPsfMatch = true` it raises the
invalid-configuration error instead of translating to
"psf-matched only". -/
theorem legacy_flag_checked_after_variant_flags :
    ({ makeDirect := false, makePsfMatched := false, doPsfMatch := true,
       doWrite := false, doOverwrite := false, bgSubtracted := false } : Config).validate
      = Except.error PipeError.invalidConfiguration := rfl

/-- C3: when the external warp/PSF-match call raises for a calexp, the
calexp is skipped entirely: the per-variant states (canvases, running
totals and coverage tables of every requested variant) are exactly as
before the calexp was attempted, and the accumulation continues with
the next calexp of the group. -/
theorem warp_failure_skips (inp : CalExpInput) (ce : CalExp)
    (hl : inp.loadResult = some ce) (hw : inp.warpResult = none)
    (warpTypes : List WarpType) (i : Nat) (sts : WarpType → VariantState)
    (rest : List CalExpInput) :
    processCalExp warpTypes i inp sts = sts
    ∧ accumulateFrom warpTypes i (inp :: rest) sts
        = accumulateFrom warpTypes (i + 1) rest sts := by
  have h1 : processCalExp warpTypes i inp sts = sts :=
    processCalExp_warpFail warpTypes i inp sts ce hl hw
  exact ⟨h1, by rw [accumulateFrom, h1]⟩

theorem warp_failure_skips_witness :
    processCalExp [WarpType.direct] 0 inpWarpFail (initialStates 2) = initialStates 2
    ∧ accumulateFrom [WarpType.direct] 0 [inpWarpFail] (initialStates 2)
        = accumulateFrom [WarpType.direct] 1 [] (initialStates 2) :=
  warp_failure_skips inpWarpFail calExpW rfl rfl [WarpType.direct] 0 (initialStates 2) []

/-- C10 counterexample: with both variants requested, an error raised
while recording the later (psf-matched) variant of a calexp — after its
merge already copied a good pixel into its canvas in place — leaves the
psf-matched variant WITH merged pixels (pixel 0 holds the value 8) and
without a coverage record, while the earlier (direct) variant keeps its
pixels and record.  This contradicts the claim that the remaining
variants receive neither pixels nor a coverage record from that
exposure. -/
theorem variant_error_nonatomic_counterexample :
    (processCalExp (getWarpTypeList cfgBoth) 0 inpRecFault (initialStates 2)
        WarpType.psfMatched).coaddTempExp.pixels.get? 0 = some (some 8)
    ∧ (processCalExp (getWarpTypeList cfgBoth) 0 inpRecFault (initialStates 2)
        WarpType.psfMatched).records = []
    ∧ (processCalExp (getWarpTypeList cfgBoth) 0 inpRecFault (initialStates 2)
        WarpType.direct).records
        = [{ ccdId := 3, numGoodPix := 1, fluxMag0 := 2 }] := by
  decide

/-- C10 (amended): per-calexp processing of the requested variants is
not atomic across variants.  If an error is raised while merging or
recording a later variant for an exposure, the pixels already merged and
the coverage record already added for an earlier variant of that same
exposure are kept, and the variants after the failing one receive
neither pixels nor a coverage record from that exposure.  The failing
variant itself receives nothing when the error strikes during merging;
when it strikes during recording, the failing variant keeps the pixels
already merged (with the running-total update) but receives no coverage
record. -/
theorem variant_error_sites (cfg : Config)
    (hmd : cfg.makeDirect = true) (hmp : cfg.makePsfMatched = true)
    (inp : CalExpInput) (ce : CalExp) (warped : WarpType → Option WExposure)
    (hl : inp.loadResult = some ce) (hw : inp.warpResult = some warped)
    (i : Nat) (sts : WarpType → VariantState) :
    (∀ eD eP, warped WarpType.direct = some eD → eD.mergeFault = false →
        eD.recordFault = false →
        warped WarpType.psfMatched = some eP → eP.mergeFault = true →
        processCalExp (getWarpTypeList cfg) i inp sts WarpType.psfMatched
            = sts WarpType.psfMatched
        ∧ processVariant ce (inp.ccdIdOpt.getD i) (some eD) (sts WarpType.direct)
            = Except.ok (processCalExp (getWarpTypeList cfg) i inp sts WarpType.direct)
        ∧ ∃ r, (processCalExp (getWarpTypeList cfg) i inp sts WarpType.direct).records
            = (sts WarpType.direct).records ++ [r])
    ∧ (∀ eD eP, warped WarpType.direct = some eD → eD.mergeFault = false →
        eD.recordFault = false →
        warped WarpType.psfMatched = some eP → eP.mergeFault = false →
        eP.recordFault = true →
        (processCalExp (getWarpTypeList cfg) i inp sts WarpType.psfMatched).records
            = (sts WarpType.psfMatched).records
        ∧ (processCalExp (getWarpTypeList cfg) i inp sts
            WarpType.psfMatched).coaddTempExp.pixels
            = (copyGoodPixels (sts WarpType.psfMatched).coaddTempExp.pixels
                (mergedSrc eP (sts WarpType.psfMatched))).1
        ∧ (processCalExp (getWarpTypeList cfg) i inp sts WarpType.psfMatched).totGoodPix
            = (sts WarpType.psfMatched).totGoodPix
              + (copyGoodPixels (sts WarpType.psfMatched).coaddTempExp.pixels
                  (mergedSrc eP (sts WarpType.psfMatched))).2
        ∧ processVariant ce (inp.ccdIdOpt.getD i) (some eD) (sts WarpType.direct)
            = Except.ok (processCalExp (getWarpTypeList cfg) i inp sts WarpType.direct)
        ∧ ∃ r, (processCalExp (getWarpTypeList cfg) i inp sts WarpType.direct).records
            = (sts WarpType.direct).records ++ [r])
    ∧ (∀ eD, warped WarpType.direct = some eD →
        (eD.mergeFault = true ∨ eD.recordFault = true) →
        processCalExp (getWarpTypeList cfg) i inp sts WarpType.psfMatched
            = sts WarpType.psfMatched) := by
  have hlist : getWarpTypeList cfg = [WarpType.direct, WarpType.psfMatched] := by
    simp [getWarpTypeList, hmd, hmp]
  refine ⟨?_, ?_, ?_⟩
  · intro eD eP hd hfD hrD hp hfP
    have hstep : processCalExp (getWarpTypeList cfg) i inp sts
        = updateState (updateState sts WarpType.direct
            (mergeStep ce (inp.ccdIdOpt.getD i) eD (sts WarpType.direct)))
            WarpType.psfMatched (sts WarpType.psfMatched) := by
      rw [hlist]
      simp only [processCalExp, hl, hw, variantLoop, updateState, hd, hp]
      rw [processVariant_eq_mergeStep ce (inp.ccdIdOpt.getD i) eD
        (sts WarpType.direct) hfD hrD]
      simp only [variantLoop]
      rw [show (if WarpType.psfMatched = WarpType.direct then
            mergeStep ce (inp.ccdIdOpt.getD i) eD (sts WarpType.direct)
          else sts WarpType.psfMatched) = sts WarpType.psfMatched by simp]
      rw [processVariant_fault ce (inp.ccdIdOpt.getD i) eP (sts WarpType.psfMatched) hfP]
    have hdir : processCalExp (getWarpTypeList cfg) i inp sts WarpType.direct
        = mergeStep ce (inp.ccdIdOpt.getD i) eD (sts WarpType.direct) := by
      rw [hstep]
      simp [updateState]
    refine ⟨?_, ?_, ?_⟩
    · rw [hstep]
      simp [updateState]
    · rw [hdir]
      exact processVariant_eq_mergeStep ce (inp.ccdIdOpt.getD i) eD
        (sts WarpType.direct) hfD hrD
    · rw [hdir]
      obtain ⟨n, hn⟩ := mergeStep_records ce (inp.ccdIdOpt.getD i) eD (sts WarpType.direct)
      exact ⟨_, hn⟩
  · intro eD eP hd hfD hrD hp hfP hrP
    have hstep : processCalExp (getWarpTypeList cfg) i inp sts
        = updateState (updateState sts WarpType.direct
            (mergeStep ce (inp.ccdIdOpt.getD i) eD (sts WarpType.direct)))
            WarpType.psfMatched (mergePartial eP (sts WarpType.psfMatched)) := by
      rw [hlist]
      simp only [processCalExp, hl, hw, variantLoop, updateState, hd, hp]
      rw [processVariant_eq_mergeStep ce (inp.ccdIdOpt.getD i) eD
        (sts WarpType.direct) hfD hrD]
      simp only [variantLoop]
      rw [show (if WarpType.psfMatched = WarpType.direct then
            mergeStep ce (inp.ccdIdOpt.getD i) eD (sts WarpType.direct)
          else sts WarpType.psfMatched) = sts WarpType.psfMatched by simp]
      rw [processVariant_record_fault ce (inp.ccdIdOpt.getD i) eP
        (sts WarpType.psfMatched) hfP hrP]
    have hpsf : processCalExp (getWarpTypeList cfg) i inp sts WarpType.psfMatched
        = mergePartial eP (sts WarpType.psfMatched) := by
      rw [hstep]
      simp [updateState]
    have hdir : processCalExp (getWarpTypeList cfg) i inp sts WarpType.direct
        = mergeStep ce (inp.ccdIdOpt.getD i) eD (sts WarpType.direct) := by
      rw [hstep]
      simp [updateState]
    refine ⟨?_, ?_, ?_, ?_, ?_⟩
    · rw [hpsf, mergePartial_records]
    · rw [hpsf, mergePartial_pixels]
    · rw [hpsf, mergePartial_totGoodPix]
    · rw [hdir]
      exact processVariant_eq_mergeStep ce (inp.ccdIdOpt.getD i) eD
        (sts WarpType.direct) hfD hrD
    · rw [hdir]
      obtain ⟨n, hn⟩ := mergeStep_records ce (inp.ccdIdOpt.getD i) eD (sts WarpType.direct)
      exact ⟨_, hn⟩
  · intro eD hd hor
    have herr : ∃ s, processVariant ce (inp.ccdIdOpt.getD i) (warped WarpType.direct)
        (sts WarpType.direct) = Except.error s := by
      rw [hd]
      cases hm : eD.mergeFault with
      | true =>
        exact ⟨sts WarpType.direct,
          processVariant_fault ce (inp.ccdIdOpt.getD i) eD (sts WarpType.direct) hm⟩
      | false =>
        have hr : eD.recordFault = true := by
          rcases hor with h | h
          · rw [hm] at h
            cases h
          · exact h
        exact ⟨mergePartial eD (sts WarpType.direct),
          processVariant_record_fault ce (inp.ccdIdOpt.getD i) eD
            (sts WarpType.direct) hm hr⟩
    obtain ⟨s, hs⟩ := herr
    have hstep : processCalExp (getWarpTypeList cfg) i inp sts
        = updateState sts WarpType.direct s := by
      rw [hlist]
      simp only [processCalExp, hl, hw, variantLoop]
      rw [hs]
    rw [hstep]
    simp [updateState]

theorem variant_error_sites_witness :
    (processCalExp (getWarpTypeList cfgBoth) 0 inpFaultLater (initialStates 2)
        WarpType.psfMatched = initialStates 2 WarpType.psfMatched)
    ∧ ((processCalExp (getWarpTypeList cfgBoth) 0 inpRecFault (initialStates 2)
        WarpType.psfMatched).records = (initialStates 2 WarpType.psfMatched).records)
    ∧ ((processCalExp (getWarpTypeList cfgBoth) 0 inpRecFault (initialStates 2)
        WarpType.psfMatched).coaddTempExp.pixels
        = (copyGoodPixels (initialStates 2 WarpType.psfMatched).coaddTempExp.pixels
            (mergedSrc expRecP (initialStates 2 WarpType.psfMatched))).1)
    ∧ (processCalExp (getWarpTypeList cfgBoth) 0 inpEarlyFault (initialStates 2)
        WarpType.psfMatched = initialStates 2 WarpType.psfMatched) :=
  ⟨((variant_error_sites cfgBoth rfl rfl inpFaultLater calExpW warpedBoth rfl rfl 0
      (initialStates 2)).1 expD expP rfl rfl rfl rfl rfl).1,
   ((variant_error_sites cfgBoth rfl rfl inpRecFault calExpW warpedRec rfl rfl 0
      (initialStates 2)).2.1 expD expRecP rfl rfl rfl rfl rfl rfl).1,
   ((variant_error_sites cfgBoth rfl rfl inpRecFault calExpW warpedRec rfl rfl 0
      (initialStates 2)).2.1 expD expRecP rfl rfl rfl rfl rfl rfl).2.1,
   ((variant_error_sites cfgBoth rfl rfl inpEarlyFault calExpW warpedEarly rfl rfl 0
      (initialStates 2)).2.2 expMrgD rfl (Or.inl rfl))⟩

/-- C4: a variant whose accumulation ends with a running total of zero
contributed good pixels is mapped to the absence marker `none` by
`createTempExp`; and a visit all of whose variants are absent is omitted
from the returned manifest — it is still counted as processed — while
the per-visit loop continues normally with the remaining groups. -/
theorem zero_contribution_absent (cfg : Config) (npix : Nat) :
    (∀ (inputs : List CalExpInput) (wt : WarpType), wt ∈ getWarpTypeList cfg →
        (accumulate cfg npix inputs wt).totGoodPix = 0 →
        (wt, (none : Option Canvas)) ∈ createTempExp cfg npix inputs)
    ∧ (∀ (rs : RunState) (g : Nat × List CalExpInput) (gs : List (Nat × List CalExpInput)),
        (∀ q ∈ createTempExp cfg npix g.2, q.2 = (none : Option Canvas)) →
        (cfg.doOverwrite = true ∨ rs.sink g.1 (primaryWarpType cfg) = false) →
        (stepGroup cfg npix rs g).manifest = rs.manifest
        ∧ (stepGroup cfg npix rs g).warped = rs.warped ++ [g.1]
        ∧ runGroupsFrom cfg npix (g :: gs) rs
            = runGroupsFrom cfg npix gs (stepGroup cfg npix rs g)) := by
  constructor
  · intro inputs wt hwt h0
    have hfin : finalizeVariant wt (accumulate cfg npix inputs wt) = none := by
      simp [finalizeVariant, h0]
    exact List.mem_map.mpr ⟨wt, hwt, by rw [hfin]⟩
  · intro rs g gs hall hskip
    have hcond : ¬(cfg.doOverwrite = false ∧ rs.sink g.1 (primaryWarpType cfg) = true) := by
      rcases hskip with h | h <;> simp [h]
    have hany : (createTempExp cfg npix g.2).any (fun q => q.2.isSome) = false := by
      rw [List.any_eq_false]
      intro q hq
      rw [hall q hq]
      simp
    refine ⟨?_, ?_, rfl⟩
    · simp [stepGroup, hcond, hany]
    · simp [stepGroup, hcond]

theorem zero_contribution_absent_witness :
    ((WarpType.direct, (none : Option Canvas)) ∈ createTempExp cfgDirect 1 []
    ∧ ((stepGroup cfgDirect 1 rsEmpty (3, [])).manifest = rsEmpty.manifest
        ∧ (stepGroup cfgDirect 1 rsEmpty (3, [])).warped = rsEmpty.warped ++ [(3, ([] : List CalExpInput)).1]
        ∧ runGroupsFrom cfgDirect 1 [(3, [])] rsEmpty
            = runGroupsFrom cfgDirect 1 [] (stepGroup cfgDirect 1 rsEmpty (3, [])))) :=
  ⟨(zero_contribution_absent cfgDirect 1).1 [] WarpType.direct (by decide) (by decide),
   (zero_contribution_absent cfgDirect 1).2 rsEmpty (3, []) []
     (by decide) (Or.inl rfl)⟩

/-- C8 counterexample: with no candidate exposures at all, `run` returns
the absence marker `None` — it does not return an empty list of output
identities. -/
theorem no_candidates_counterexample :
    run cfgDirect 1 [] (fun _ _ => false) = Except.ok none
    ∧ (run cfgDirect 1 [] (fun _ _ => false)).map (Option.map RunState.manifest)
        ≠ Except.ok (some ([] : List Nat)) :=
  ⟨rfl, fun h => Option.noConfusion (Except.ok.inj h)⟩

/-- C8 (amended): with no candidate exposures at all, `run` returns the
absence marker `None` — not an error and not an empty list; when at
least one candidate whose calexp dataset exists remains, it returns the
manifest of output identities produced or already present. -/
theorem no_candidates_returns_none (cfg : Config) (npix : Nat)
    (candidates : List CandidateRef) (sink : Sink) :
    (candidates = [] → run cfg npix candidates sink = Except.ok none)
    ∧ (candidates ≠ [] → candidates.filter (fun r => r.calexpExists) ≠ [] →
        run cfg npix candidates sink
          = Except.ok (some (runGroups cfg npix
              (groupRefs (candidates.filter (fun r => r.calexpExists))) sink))) := by
  constructor
  · rintro rfl; rfl
  · intro h1 h2
    have he : candidates.isEmpty = false := by
      cases candidates with
      | nil => exact absurd rfl h1
      | cons a l => rfl
    have hg : (candidates.filter (fun r => r.calexpExists)).isEmpty = false := by
      cases hf : candidates.filter (fun r => r.calexpExists) with
      | nil => exact absurd hf h2
      | cons a l => rfl
    simp [run, he, groupPatchExposures, hg]

theorem no_candidates_returns_none_witness :
    run cfgDirect 1 [] (fun _ _ => false) = Except.ok none
    ∧ run cfgDirect 1 [candW] (fun _ _ => false)
        = Except.ok (some (runGroups cfgDirect 1
            (groupRefs ([candW].filter (fun r => r.calexpExists))) (fun _ _ => false))) :=
  ⟨(no_candidates_returns_none cfgDirect 1 [] (fun _ _ => false)).1 rfl,
   (no_candidates_returns_none cfgDirect 1 [candW] (fun _ _ => false)).2
     (List.cons_ne_nil _ _) (by simp [candW])⟩

theorem persistAll_ne (s : Sink) (key : Nat) (exps : List (WarpType × Option Canvas))
    (k : Nat) (w : WarpType) (hk : k ≠ key) :
    persistAll s key exps k w = s k w := by
  simp [persistAll, hk]

theorem stepSink_ne (cfg : Config) (npix : Nat) (s : Sink) (g : Nat × List CalExpInput)
    (k : Nat) (w : WarpType) (hk : k ≠ g.1) :
    stepSink cfg npix s g k w = s k w := by
  unfold stepSink
  split
  · rfl
  · split
    · exact persistAll_ne s g.1 _ k w hk
    · rfl

theorem stepSink_at (cfg : Config) (npix : Nat) (s : Sink) (g : Nat × List CalExpInput)
    (w : WarpType) :
    stepSink cfg npix s g g.1 w
      = (s g.1 w || groupPersists cfg npix (s g.1 (primaryWarpType cfg)) g w) := by
  unfold stepSink groupPersists
  split
  · simp
  · cases hw : cfg.doWrite with
    | true => simp [persistAll, Bool.or_comm]
    | false => simp

theorem stepGroup_fields (cfg : Config) (npix : Nat) (rs : RunState)
    (g : Nat × List CalExpInput) :
    (stepGroup cfg npix rs g).manifest
        = rs.manifest ++ groupManifestD cfg npix (rs.sink g.1 (primaryWarpType cfg)) g
    ∧ (stepGroup cfg npix rs g).warped
        = rs.warped ++ groupWarpedD cfg (rs.sink g.1 (primaryWarpType cfg)) g
    ∧ (stepGroup cfg npix rs g).sink = stepSink cfg npix rs.sink g := by
  by_cases h : cfg.doOverwrite = false ∧ rs.sink g.1 (primaryWarpType cfg) = true
  · simp [stepGroup, groupManifestD, groupWarpedD, stepSink, h]
  · simp only [stepGroup, groupManifestD, groupWarpedD, stepSink, if_neg h]
    refine ⟨?_, ?_, ?_⟩
    · split <;> simp
    · trivial
    · trivial

theorem runGroupsFrom_delta (cfg : Config) (npix : Nat) :
    ∀ (gs : List (Nat × List CalExpInput)) (rs : RunState),
      (runGroupsFrom cfg npix gs rs).manifest = rs.manifest ++ (runDelta cfg npix gs rs.sink).1
      ∧ (runGroupsFrom cfg npix gs rs).warped = rs.warped ++ (runDelta cfg npix gs rs.sink).2.1
      ∧ (runGroupsFrom cfg npix gs rs).sink = (runDelta cfg npix gs rs.sink).2.2
  | [], rs => ⟨by simp [runGroupsFrom, runDelta], by simp [runGroupsFrom, runDelta], rfl⟩
  | g :: gs, rs => by
    obtain ⟨h1, h2, h3⟩ := runGroupsFrom_delta cfg npix gs (stepGroup cfg npix rs g)
    obtain ⟨f1, f2, f3⟩ := stepGroup_fields cfg npix rs g
    refine ⟨?_, ?_, ?_⟩
    · rw [runGroupsFrom, h1, f1, f3]
      dsimp only [runDelta]
      rw [List.append_assoc]
    · rw [runGroupsFrom, h2, f2, f3]
      dsimp only [runDelta]
      rw [List.append_assoc]
    · rw [runGroupsFrom, h3, f3]
      dsimp only [runDelta]

theorem groupManifestD_rel (cfg : Config) (npix : Nat) (g : Nat × List CalExpInput)
    (b : Bool) (hov : cfg.doOverwrite = false) :
    groupManifestD cfg npix (b || groupPersists cfg npix b g (primaryWarpType cfg)) g
      = groupManifestD cfg npix b g := by
  cases b with
  | true => simp
  | false =>
    simp only [Bool.false_or]
    cases hc : groupPersists cfg npix false g (primaryWarpType cfg) with
    | false => rfl
    | true =>
      have hc2 : (cfg.doWrite && (createTempExp cfg npix g.2).any
          (fun q => decide (q.1 = primaryWarpType cfg) && q.2.isSome)) = true := by
        rw [groupPersists, if_neg (by simp)] at hc
        exact hc
      have hany : (createTempExp cfg npix g.2).any (fun q => q.2.isSome) = true := by
        obtain ⟨q, hq, hq2⟩ := List.any_eq_true.mp ((Bool.and_eq_true _ _).mp hc2).2
        exact List.any_eq_true.mpr ⟨q, hq, ((Bool.and_eq_true _ _).mp hq2).2⟩
      simp [groupManifestD, hov, hany]

theorem idem_aux (cfg : Config) (npix : Nat) (hov : cfg.doOverwrite = false) :
    ∀ (gs : List (Nat × List CalExpInput)) (s1 s2 : Sink),
      (gs.map Prod.fst).Nodup →
      (∀ g ∈ gs, ∀ w, s2 g.1 w
          = (s1 g.1 w || groupPersists cfg npix (s1 g.1 (primaryWarpType cfg)) g w)) →
      (runDelta cfg npix gs s2).1 = (runDelta cfg npix gs s1).1
  | [], _, _, _, _ => rfl
  | g :: gs, s1, s2, hnd, hrel => by
    have hnd2 : g.1 ∉ gs.map Prod.fst ∧ (gs.map Prod.fst).Nodup := by
      rw [List.map_cons, List.nodup_cons] at hnd
      exact hnd
    have hb := hrel g (List.mem_cons_self g gs) (primaryWarpType cfg)
    have hhead : groupManifestD cfg npix (s2 g.1 (primaryWarpType cfg)) g
        = groupManifestD cfg npix (s1 g.1 (primaryWarpType cfg)) g := by
      rw [hb]
      exact groupManifestD_rel cfg npix g _ hov
    have htail : (runDelta cfg npix gs (stepSink cfg npix s2 g)).1
        = (runDelta cfg npix gs (stepSink cfg npix s1 g)).1 := by
      apply idem_aux cfg npix hov gs _ _ hnd2.2
      intro g2 hg2 w
      have hne : g2.1 ≠ g.1 := by
        intro he
        exact hnd2.1 (he ▸ List.mem_map_of_mem Prod.fst hg2)
      rw [stepSink_ne cfg npix s2 g g2.1 w hne,
          stepSink_ne cfg npix s1 g g2.1 w hne,
          stepSink_ne cfg npix s1 g g2.1 (primaryWarpType cfg) hne]
      exact hrel g2 (List.mem_cons_of_mem g hg2) w
    dsimp only [runDelta]
    rw [hhead, htail]

theorem runDelta_sink_not_mem (cfg : Config) (npix : Nat) :
    ∀ (gs : List (Nat × List CalExpInput)) (s : Sink) (k : Nat),
      k ∉ gs.map Prod.fst → ∀ w, (runDelta cfg npix gs s).2.2 k w = s k w
  | [], _, _, _, _ => rfl
  | g :: gs, s, k, hk, w => by
    have hk1 : k ≠ g.1 := by
      intro he
      exact hk (by simp [he])
    have hk2 : k ∉ gs.map Prod.fst := fun h => hk (by simp [h])
    dsimp only [runDelta]
    rw [runDelta_sink_not_mem cfg npix gs (stepSink cfg npix s g) k hk2 w]
    exact stepSink_ne cfg npix s g k w hk1

theorem runDelta_sink_rel (cfg : Config) (npix : Nat) :
    ∀ (gs : List (Nat × List CalExpInput)) (s : Sink),
      (gs.map Prod.fst).Nodup →
      ∀ g ∈ gs, ∀ w,
        (runDelta cfg npix gs s).2.2 g.1 w
          = (s g.1 w || groupPersists cfg npix (s g.1 (primaryWarpType cfg)) g w)
  | [], _, _, g, hg, _ => absurd hg (List.not_mem_nil g)
  | h :: gs, s, hnd, g, hg, w => by
    have hnd2 : h.1 ∉ gs.map Prod.fst ∧ (gs.map Prod.fst).Nodup := by
      rw [List.map_cons, List.nodup_cons] at hnd
      exact hnd
    rcases List.mem_cons.mp hg with rfl | hg2
    · dsimp only [runDelta]
      rw [runDelta_sink_not_mem cfg npix gs (stepSink cfg npix s g) g.1 hnd2.1 w]
      exact stepSink_at cfg npix s g w
    · have hne : g.1 ≠ h.1 := by
        intro he
        exact hnd2.1 (he ▸ List.mem_map_of_mem Prod.fst hg2)
      dsimp only [runDelta]
      rw [runDelta_sink_rel cfg npix gs (stepSink cfg npix s h) hnd2.2 g hg2 w,
          stepSink_ne cfg npix s h g.1 w hne,
          stepSink_ne cfg npix s h g.1 (primaryWarpType cfg) hne]

theorem runDelta_warped_subset (cfg : Config) (npix : Nat) :
    ∀ (gs : List (Nat × List CalExpInput)) (s : Sink) (x : Nat),
      x ∈ (runDelta cfg npix gs s).2.1 → x ∈ gs.map Prod.fst
  | [], _, _, hx => absurd hx (List.not_mem_nil _)
  | g :: gs, s, x, hx => by
    dsimp only [runDelta] at hx
    rcases List.mem_append.mp hx with hx | hx
    · have : x = g.1 := by
        unfold groupWarpedD at hx
        split at hx
        · exact absurd hx (List.not_mem_nil _)
        · simpa using hx
      simp [this]
    · have := runDelta_warped_subset cfg npix gs (stepSink cfg npix s g) x hx
      simp only [List.map_cons, List.mem_cons]
      exact Or.inr this

theorem runDelta_mem_skip (cfg : Config) (npix : Nat) (hov : cfg.doOverwrite = false) :
    ∀ (gs : List (Nat × List CalExpInput)) (s : Sink),
      (gs.map Prod.fst).Nodup →
      ∀ g ∈ gs, s g.1 (primaryWarpType cfg) = true →
        g.1 ∈ (runDelta cfg npix gs s).1 ∧ g.1 ∉ (runDelta cfg npix gs s).2.1
  | [], _, _, g, hg, _ => absurd hg (List.not_mem_nil g)
  | h :: gs, s, hnd, g, hg, hs => by
    have hnd2 : h.1 ∉ gs.map Prod.fst ∧ (gs.map Prod.fst).Nodup := by
      rw [List.map_cons, List.nodup_cons] at hnd
      exact hnd
    rcases List.mem_cons.mp hg with rfl | hg2
    · constructor
      · apply List.mem_append_left
        simp [groupManifestD, hov, hs]
      · intro hx
        dsimp only [runDelta] at hx
        rcases List.mem_append.mp hx with hx | hx
        · simp [groupWarpedD, hov, hs] at hx
        · exact hnd2.1 (runDelta_warped_subset cfg npix gs _ g.1 hx)
    · have hne : g.1 ≠ h.1 := by
        intro he
        exact hnd2.1 (he ▸ List.mem_map_of_mem Prod.fst hg2)
      have hs2 : stepSink cfg npix s h g.1 (primaryWarpType cfg) = true := by
        rw [stepSink_ne cfg npix s h g.1 (primaryWarpType cfg) hne]
        exact hs
      have ih := runDelta_mem_skip cfg npix hov gs (stepSink cfg npix s h) hnd2.2 g hg2 hs2
      constructor
      · exact List.mem_append_right _ ih.1
      · intro hx
        dsimp only [runDelta] at hx
        rcases List.mem_append.mp hx with hx | hx
        · unfold groupWarpedD at hx
          split at hx
          · exact absurd hx (List.not_mem_nil _)
          · exact hne (by simpa using hx)
        · exact ih.2 hx

/-- C7: with overwrite disabled, every visit group whose primary warp
output already exists is skipped — `createTempExp` is not invoked for it
— and its identity is still recorded in the returned manifest; and a
second run over the same groups, starting from the sink the first run
left behind, produces exactly the same manifest as the first run. -/
theorem skip_existing_idempotent (cfg : Config) (npix : Nat)
    (groups : List (Nat × List CalExpInput)) (sink : Sink)
    (hov : cfg.doOverwrite = false) (hnd : (groups.map Prod.fst).Nodup) :
    (∀ g ∈ groups, sink g.1 (primaryWarpType cfg) = true →
        g.1 ∈ (runGroups cfg npix groups sink).manifest
        ∧ g.1 ∉ (runGroups cfg npix groups sink).warped)
    ∧ (runGroups cfg npix groups ((runGroups cfg npix groups sink).sink)).manifest
        = (runGroups cfg npix groups sink).manifest := by
  obtain ⟨h1, h2, h3⟩ :=
    runGroupsFrom_delta cfg npix groups { manifest := [], warped := [], sink := sink }
  have e1 : (runGroups cfg npix groups sink).manifest = (runDelta cfg npix groups sink).1 := by
    simpa [runGroups] using h1
  have e2 : (runGroups cfg npix groups sink).warped = (runDelta cfg npix groups sink).2.1 := by
    simpa [runGroups] using h2
  have es : (runGroups cfg npix groups sink).sink = (runDelta cfg npix groups sink).2.2 := by
    simpa [runGroups] using h3
  constructor
  · intro g hg hs
    have hm := runDelta_mem_skip cfg npix hov groups sink hnd g hg hs
    rw [e1, e2]
    exact hm
  · have e1b : (runGroups cfg npix groups ((runGroups cfg npix groups sink).sink)).manifest
        = (runDelta cfg npix groups ((runGroups cfg npix groups sink).sink)).1 := by
      simpa [runGroups] using
        (runGroupsFrom_delta cfg npix groups
          { manifest := [], warped := [],
            sink := (runGroups cfg npix groups sink).sink }).1
    rw [e1b, e1, es]
    apply idem_aux cfg npix hov groups sink _ hnd
    intro g hg w
    exact runDelta_sink_rel cfg npix groups sink hnd g hg w

theorem skip_existing_idempotent_witness :
    ((1 : Nat) ∈ (runGroups cfgNoOv 1 [(1, []), (2, [])] (fun k _ => decide (k = 1))).manifest
    ∧ (1 : Nat) ∉ (runGroups cfgNoOv 1 [(1, []), (2, [])] (fun k _ => decide (k = 1))).warped)
    ∧ (runGroups cfgNoOv 1 [(1, []), (2, [])]
        ((runGroups cfgNoOv 1 [(1, []), (2, [])] (fun k _ => decide (k = 1))).sink)).manifest
      = (runGroups cfgNoOv 1 [(1, []), (2, [])] (fun k _ => decide (k = 1))).manifest := by
  have h := skip_existing_idempotent cfgNoOv 1 [(1, []), (2, [])]
    (fun k _ => decide (k = 1)) rfl (by decide)
  exact ⟨h.1 (1, []) (List.mem_cons_self _ _) rfl, h.2⟩

theorem copyGoodPixels_length : ∀ (d s : List (Option ℚ)),
    (copyGoodPixels d s).1.length = d.length
  | d, [] => by cases d <;> rfl
  | [], _ :: _ => rfl
  | d :: ds, s :: ss => by
    cases d <;> cases s <;> simp [copyGoodPixels, copyGoodPixels_length ds ss]

theorem copyGoodPixels_get : ∀ (d s : List (Option ℚ)) (p : Nat),
    (copyGoodPixels d s).1.get? p =
      match d.get? p with
      | none => none
      | some (some v) => some (some v)
      | some none =>
        match s.get? p with
        | some (some v) => some (some v)
        | _ => some none
  | [], [], p => rfl
  | [], s :: ss, p => rfl
  | d :: ds, [], p => by
    rw [show copyGoodPixels (d :: ds) [] = (d :: ds, 0) from rfl]
    cases h : (d :: ds).get? p with
    | none => rfl
    | some px => cases px <;> rfl
  | d :: ds, s :: ss, p => by
    cases p with
    | zero => cases d <;> cases s <;> simp [copyGoodPixels]
    | succ n =>
      have ih := copyGoodPixels_get ds ss n
      cases d <;> cases s <;> simpa [copyGoodPixels] using ih

theorem copyGoodPixels_zero : ∀ (d s : List (Option ℚ)),
    (copyGoodPixels d s).2 = 0 → (copyGoodPixels d s).1 = d
  | d, [], _ => by cases d <;> rfl
  | [], _ :: _, _ => rfl
  | d :: ds, s :: ss, h => by
    cases d <;> cases s <;> simp [copyGoodPixels] at h ⊢ <;>
      exact copyGoodPixels_zero ds ss h

theorem copyGoodPixels_pos : ∀ (d s : List (Option ℚ)),
    (∀ px ∈ d, px = none) → d.length = s.length →
    (0 < (copyGoodPixels d s).2 ↔ s.any (fun px => px.isSome) = true)
  | [], [], _, _ => by simp [copyGoodPixels]
  | [], _ :: _, _, hl => by simp at hl
  | _ :: _, [], _, hl => by simp at hl
  | d :: ds, s :: ss, hall, hl => by
    have hd : d = none := hall d (List.mem_cons_self _ _)
    subst hd
    have ih := copyGoodPixels_pos ds ss
      (fun px hpx => hall px (List.mem_cons_of_mem _ hpx)) (by simpa using hl)
    cases s with
    | none => simpa [copyGoodPixels] using ih
    | some v => simp [copyGoodPixels]

theorem scalePixels_get (r : ℚ) (ps : List (Option ℚ)) (p : Nat) :
    (scalePixels r ps).get? p = (ps.get? p).map (Option.map (fun v => v * r)) := by
  simp [scalePixels, List.get?_map]

theorem scalePixels_length (r : ℚ) (ps : List (Option ℚ)) :
    (scalePixels r ps).length = ps.length := by
  simp [scalePixels]

theorem cleanExpB_spec (npix : Nat) (e : WExposure) (h : cleanExpB npix (some e) = true) :
    e.mergeFault = false ∧ e.recordFault = false ∧ e.pixels.length = npix
      ∧ e.fluxMag0 ≠ 0 := by
  simp [cleanExpB] at h
  tauto

theorem cleanInputB_avail (npix : Nat) (inp : CalExpInput) (h : cleanInputB npix inp = true) :
    ∀ wt : WarpType, cleanExpB npix (avail inp wt) = true := by
  have h2 := (Bool.and_eq_true _ _).mp h
  intro wt
  cases wt with
  | direct => exact h2.1
  | psfMatched => exact h2.2

theorem cleanInputsB_split (npix : Nat) (inp : CalExpInput) (rest : List CalExpInput)
    (h : cleanInputsB npix (inp :: rest) = true) :
    cleanInputB npix inp = true ∧ cleanInputsB npix rest = true := by
  rw [cleanInputsB, List.all_cons] at h
  exact (Bool.and_eq_true _ _).mp h

theorem cleanInputsB_take (npix : Nat) (inputs : List CalExpInput) (k : Nat)
    (h : cleanInputsB npix inputs = true) : cleanInputsB npix (inputs.take k) = true := by
  rw [cleanInputsB, List.all_eq_true] at h ⊢
  exact fun x hx => h x (List.take_subset k inputs hx)

theorem cleanInputsB_drop (npix : Nat) (inputs : List CalExpInput) (k : Nat)
    (h : cleanInputsB npix inputs = true) : cleanInputsB npix (inputs.drop k) = true := by
  rw [cleanInputsB, List.all_eq_true] at h ⊢
  exact fun x hx => h x (List.drop_subset k inputs hx)

theorem StInv_initial (npix : Nat) (wt : WarpType) : StInv npix (initialStates npix wt) :=
  ⟨by simp [initialStates, prepareEmptyExposure],
   fun _ px hpx => List.eq_of_mem_replicate (by simpa [initialStates, prepareEmptyExposure] using hpx)⟩

theorem mergeStep_pixels (ce : CalExp) (ccd : Nat) (e : WExposure) (st : VariantState) :
    (mergeStep ce ccd e st).coaddTempExp.pixels
      = (copyGoodPixels st.coaddTempExp.pixels (mergedSrc e st)).1 := by
  unfold mergeStep mergedSrc
  cases hds : st.didSetMetadata <;>
    simp only [hds] <;>
    rw [apply_ite (fun s : VariantState => s.coaddTempExp.pixels)] <;>
    simp

theorem mergeStep_get (ce : CalExp) (ccd : Nat) (e : WExposure) (st : VariantState)
    (p : Nat) :
    (mergeStep ce ccd e st).coaddTempExp.pixels.get? p =
      match st.coaddTempExp.pixels.get? p with
      | none => none
      | some (some v) => some (some v)
      | some none =>
        match e.pixels.get? p with
        | some (some v) =>
            some (some (if st.didSetMetadata then v * (st.coaddTempExp.fluxMag0 / e.fluxMag0)
                        else v))
        | _ => some none := by
  rw [mergeStep_pixels, copyGoodPixels_get]
  cases hds : st.didSetMetadata with
  | false =>
    have hsrc : mergedSrc e st = e.pixels := by simp [mergedSrc, hds]
    rw [hsrc]
    simp only [hds, Bool.false_eq_true, if_false]
  | true =>
    have hsrc : mergedSrc e st
        = scalePixels (st.coaddTempExp.fluxMag0 / e.fluxMag0) e.pixels := by
      simp [mergedSrc, hds]
    rw [hsrc]
    simp only [hds, if_true]
    cases h1 : st.coaddTempExp.pixels.get? p with
    | none => rfl
    | some px =>
      cases px with
      | some v => rfl
      | none =>
        rw [scalePixels_get]
        cases h2 : e.pixels.get? p with
        | none => rfl
        | some px2 => cases px2 <;> rfl

theorem mergeStep_meta (npix : Nat) (ce : CalExp) (ccd : Nat) (e : WExposure)
    (st : VariantState) (hlen : e.pixels.length = npix) (hinv : StInv npix st) :
    ((mergeStep ce ccd e st).didSetMetadata = (st.didSetMetadata || hasGoodB e))
    ∧ (st.didSetMetadata = true →
        (mergeStep ce ccd e st).coaddTempExp.fluxMag0 = st.coaddTempExp.fluxMag0
        ∧ (mergeStep ce ccd e st).coaddTempExp.filterId = st.coaddTempExp.filterId
        ∧ (mergeStep ce ccd e st).coaddTempExp.psf = st.coaddTempExp.psf)
    ∧ (st.didSetMetadata = false → hasGoodB e = true →
        (mergeStep ce ccd e st).coaddTempExp.fluxMag0 = e.fluxMag0
        ∧ (mergeStep ce ccd e st).coaddTempExp.filterId = e.filterId
        ∧ (mergeStep ce ccd e st).coaddTempExp.psf = PsfModel.exposurePsf e.psfId)
    ∧ (st.didSetMetadata = false → hasGoodB e = false →
        (mergeStep ce ccd e st).coaddTempExp.fluxMag0 = st.coaddTempExp.fluxMag0)
    ∧ StInv npix (mergeStep ce ccd e st) := by
  obtain ⟨hL, hN⟩ := hinv
  have hlenM : (mergeStep ce ccd e st).coaddTempExp.pixels.length = npix := by
    rw [mergeStep_pixels, copyGoodPixels_length]
    exact hL
  cases hds : st.didSetMetadata with
  | true =>
    have h1 : (mergeStep ce ccd e st).didSetMetadata = true := by
      unfold mergeStep
      simp [hds]
    refine ⟨?_, ?_, ?_, ?_, ?_⟩
    · rw [h1, Bool.true_or]
    · intro _
      unfold mergeStep
      simp [hds]
    · intro hcontra
      cases hcontra
    · intro hcontra
      cases hcontra
    · refine ⟨hlenM, ?_⟩
      intro hcontra
      rw [h1] at hcontra
      cases hcontra
  | false =>
    have hall : ∀ px ∈ st.coaddTempExp.pixels, px = none := hN hds
    have hsrc : mergedSrc e st = e.pixels := by simp [mergedSrc, hds]
    have hpos : 0 < (copyGoodPixels st.coaddTempExp.pixels e.pixels).2
        ↔ hasGoodB e = true :=
      copyGoodPixels_pos st.coaddTempExp.pixels e.pixels hall (hL.trans hlen.symm)
    by_cases hg : hasGoodB e = true
    · have hp2 : 0 < (copyGoodPixels st.coaddTempExp.pixels e.pixels).2 := hpos.mpr hg
      refine ⟨?_, ?_, ?_, ?_, ?_⟩
      · unfold mergeStep
        simp [hds, hg, hp2]
      · intro hcontra
        cases hcontra
      · intro _ _
        unfold mergeStep
        simp [hds, hp2]
      · intro _ hcontra
        rw [hg] at hcontra
        cases hcontra
      · refine ⟨hlenM, ?_⟩
        intro hcontra
        have : (mergeStep ce ccd e st).didSetMetadata = true := by
          unfold mergeStep
          simp [hds, hp2]
        rw [this] at hcontra
        cases hcontra
    · have hg2 : hasGoodB e = false := by
        cases hgv : hasGoodB e
        · rfl
        · exact absurd hgv hg
      have hz : (copyGoodPixels st.coaddTempExp.pixels e.pixels).2 = 0 := by
        by_contra hnz
        exact hg (hpos.mp (Nat.pos_of_ne_zero hnz))
      refine ⟨?_, ?_, ?_, ?_, ?_⟩
      · unfold mergeStep
        simp [hds, hg2, hz]
      · intro hcontra
        cases hcontra
      · intro _ hcontra
        rw [hg2] at hcontra
        cases hcontra
      · intro _ _
        unfold mergeStep
        simp [hds, hz]
      · refine ⟨hlenM, ?_⟩
        intro _
        rw [mergeStep_pixels, hsrc, copyGoodPixels_zero st.coaddTempExp.pixels e.pixels hz]
        exact hall

theorem getWarpTypeList_nodup (c : Config) : (getWarpTypeList c).Nodup := by
  unfold getWarpTypeList
  cases c.makeDirect <;> cases c.makePsfMatched <;> decide

theorem variantLoop_not_mem (ce : CalExp) (ccd : Nat) (warped : WarpType → Option WExposure)
    (wt : WarpType) :
    ∀ (wts : List WarpType) (sts : WarpType → VariantState), wt ∉ wts →
      variantLoop ce ccd warped wts sts wt = sts wt
  | [], sts, _ => rfl
  | w :: rest, sts, h => by
    have hne : wt ≠ w := fun he => h (he ▸ List.mem_cons_self w rest)
    have h2 : wt ∉ rest := fun hr => h (List.mem_cons_of_mem w hr)
    cases hpv : processVariant ce ccd (warped w) (sts w) with
    | ok s =>
      simp only [variantLoop, hpv]
      rw [variantLoop_not_mem ce ccd warped wt rest _ h2]
      simp [updateState, hne]
    | error s =>
      simp only [variantLoop, hpv]
      simp [updateState, hne]

theorem variantLoop_mem (ce : CalExp) (ccd : Nat) (warped : WarpType → Option WExposure)
    (wt : WarpType) :
    ∀ (wts : List WarpType) (sts : WarpType → VariantState),
      wts.Nodup → wt ∈ wts →
      (∀ w : WarpType, ∀ e, warped w = some e →
        e.mergeFault = false ∧ e.recordFault = false) →
      variantLoop ce ccd warped wts sts wt
        = (match warped wt with
           | none => sts wt
           | some e => mergeStep ce ccd e (sts wt))
  | [], _, _, hwt, _ => absurd hwt (List.not_mem_nil wt)
  | w :: rest, sts, hnd, hwt, hcl => by
    obtain ⟨hw1, hw2⟩ := List.nodup_cons.mp hnd
    have hok : ∃ s, processVariant ce ccd (warped w) (sts w) = Except.ok s
        ∧ s = (match warped w with
               | none => sts w
               | some e => mergeStep ce ccd e (sts w)) := by
      cases hww : warped w with
      | none => exact ⟨sts w, rfl, rfl⟩
      | some e =>
        exact ⟨mergeStep ce ccd e (sts w),
          processVariant_eq_mergeStep ce ccd e (sts w)
            (hcl w e hww).1 (hcl w e hww).2, rfl⟩
    obtain ⟨s, hs, hsv⟩ := hok
    rcases List.mem_cons.mp hwt with rfl | hmem
    · simp only [variantLoop, hs]
      rw [variantLoop_not_mem ce ccd warped wt rest _ hw1]
      rw [hsv]
      simp [updateState]
    · have hne : wt ≠ w := fun he => hw1 (he ▸ hmem)
      simp only [variantLoop, hs]
      rw [variantLoop_mem ce ccd warped wt rest _ hw2 hmem hcl]
      simp [updateState, hne]

theorem processCalExp_char (npix : Nat) (wts : List WarpType) (i : Nat)
    (inp : CalExpInput) (sts : WarpType → VariantState) (wt : WarpType)
    (hnd : wts.Nodup) (hwt : wt ∈ wts) (hcl : cleanInputB npix inp = true) :
    ∃ ce ccd, processCalExp wts i inp sts wt
      = (match avail inp wt with
         | none => sts wt
         | some e => mergeStep ce ccd e (sts wt)) := by
  cases hl : inp.loadResult with
  | none =>
    refine ⟨⟨0⟩, 0, ?_⟩
    have hav : avail inp wt = none := by simp [avail, hl]
    rw [hav]
    simp [processCalExp, hl]
  | some ce =>
    cases hw : inp.warpResult with
    | none =>
      refine ⟨ce, 0, ?_⟩
      have hav : avail inp wt = none := by simp [avail, hl, hw]
      rw [hav]
      simp [processCalExp, hl, hw]
    | some warped =>
      refine ⟨ce, inp.ccdIdOpt.getD i, ?_⟩
      have hav : avail inp wt = warped wt := by simp [avail, hl, hw]
      have hclw : ∀ w : WarpType, ∀ e, warped w = some e →
          e.mergeFault = false ∧ e.recordFault = false := by
        intro w e hwe
        have hc := cleanInputB_avail npix inp hcl w
        rw [show avail inp w = warped w from by simp [avail, hl, hw], hwe] at hc
        exact ⟨(cleanExpB_spec npix e hc).1, (cleanExpB_spec npix e hc).2.1⟩
      rw [hav, show processCalExp wts i inp sts
          = variantLoop ce (inp.ccdIdOpt.getD i) warped wts sts from by
            simp [processCalExp, hl, hw]]
      exact variantLoop_mem ce (inp.ccdIdOpt.getD i) warped wt wts sts hnd hwt hclw

theorem warpedList_cons_none (wt : WarpType) (inp : CalExpInput) (rest : List CalExpInput)
    (h : avail inp wt = none) : warpedList wt (inp :: rest) = warpedList wt rest := by
  simp [warpedList, List.filterMap_cons, h]

theorem warpedList_cons_some (wt : WarpType) (inp : CalExpInput) (rest : List CalExpInput)
    (e : WExposure) (h : avail inp wt = some e) :
    warpedList wt (inp :: rest) = e :: warpedList wt rest := by
  simp [warpedList, List.filterMap_cons, h]

theorem contPixel_cons_none (wt : WarpType) (p : Nat) (ds : Bool) (zpA : ℚ)
    (inp : CalExpInput) (rest : List CalExpInput) (h : avail inp wt = none) :
    contPixel wt p ds zpA (inp :: rest) = contPixel wt p ds zpA rest := by
  simp [contPixel, h]

theorem contPixel_cons_some (wt : WarpType) (p : Nat) (ds : Bool) (zpA : ℚ)
    (inp : CalExpInput) (rest : List CalExpInput) (e : WExposure)
    (h : avail inp wt = some e) :
    contPixel wt p ds zpA (inp :: rest)
      = match e.pixels.get? p with
        | some (some v) => some (if ds then v * (zpA / e.fluxMag0) else v)
        | _ => contPixel wt p (ds || hasGoodB e)
            (if ds then zpA else if hasGoodB e then e.fluxMag0 else zpA) rest := by
  simp only [contPixel, h]

theorem accumFrom_char (cfg : Config) (npix : Nat) (wt : WarpType)
    (hwt : wt ∈ getWarpTypeList cfg) :
    ∀ (inputs : List CalExpInput) (i : Nat) (sts : WarpType → VariantState),
      cleanInputsB npix inputs = true →
      StInv npix (sts wt) →
      (∀ p, (accumulateFrom (getWarpTypeList cfg) i inputs sts wt).coaddTempExp.pixels.get? p =
          match (sts wt).coaddTempExp.pixels.get? p with
          | none => none
          | some (some v) => some (some v)
          | some none =>
            some (contPixel wt p (sts wt).didSetMetadata
              (sts wt).coaddTempExp.fluxMag0 inputs))
      ∧ ((accumulateFrom (getWarpTypeList cfg) i inputs sts wt).didSetMetadata
          = ((sts wt).didSetMetadata || ((warpedList wt inputs).find? hasGoodB).isSome))
      ∧ ((sts wt).didSetMetadata = true →
          (accumulateFrom (getWarpTypeList cfg) i inputs sts wt).coaddTempExp.fluxMag0
              = (sts wt).coaddTempExp.fluxMag0
          ∧ (accumulateFrom (getWarpTypeList cfg) i inputs sts wt).coaddTempExp.filterId
              = (sts wt).coaddTempExp.filterId
          ∧ (accumulateFrom (getWarpTypeList cfg) i inputs sts wt).coaddTempExp.psf
              = (sts wt).coaddTempExp.psf)
      ∧ ((sts wt).didSetMetadata = false →
          ∀ F, (warpedList wt inputs).find? hasGoodB = some F →
            (accumulateFrom (getWarpTypeList cfg) i inputs sts wt).coaddTempExp.fluxMag0
                = F.fluxMag0
            ∧ (accumulateFrom (getWarpTypeList cfg) i inputs sts wt).coaddTempExp.filterId
                = F.filterId
            ∧ (accumulateFrom (getWarpTypeList cfg) i inputs sts wt).coaddTempExp.psf
                = PsfModel.exposurePsf F.psfId)
      ∧ ((sts wt).didSetMetadata = false → (warpedList wt inputs).find? hasGoodB = none →
          (accumulateFrom (getWarpTypeList cfg) i inputs sts wt).coaddTempExp.fluxMag0
              = (sts wt).coaddTempExp.fluxMag0)
      ∧ StInv npix (accumulateFrom (getWarpTypeList cfg) i inputs sts wt)
  | [], i, sts, _, hinv => by
    refine ⟨?_, ?_, ?_, ?_, ?_, ?_⟩
    · intro p
      show (sts wt).coaddTempExp.pixels.get? p = _
      cases h1 : (sts wt).coaddTempExp.pixels.get? p with
      | none => rfl
      | some px =>
        cases px with
        | none => rfl
        | some v => rfl
    · show (sts wt).didSetMetadata = _
      simp [warpedList]
    · intro _
      exact ⟨rfl, rfl, rfl⟩
    · intro _ F hF
      simp [warpedList] at hF
    · intro _ _
      rfl
    · exact hinv
  | inp :: rest, i, sts, hclean, hinv => by
    obtain ⟨hc1, hc2⟩ := cleanInputsB_split npix inp rest hclean
    obtain ⟨ce, ccd, hchar⟩ :=
      processCalExp_char npix (getWarpTypeList cfg) i inp sts wt
        (getWarpTypeList_nodup cfg) hwt hc1
    have hstep : accumulateFrom (getWarpTypeList cfg) i (inp :: rest) sts
        = accumulateFrom (getWarpTypeList cfg) (i + 1) rest
            (processCalExp (getWarpTypeList cfg) i inp sts) := rfl
    cases hav : avail inp wt with
    | none =>
      have heq : processCalExp (getWarpTypeList cfg) i inp sts wt = sts wt := by
        rw [hchar, hav]
      have hinv2 : StInv npix (processCalExp (getWarpTypeList cfg) i inp sts wt) := by
        rw [heq]
        exact hinv
      have IH := accumFrom_char cfg npix wt hwt rest (i + 1)
        (processCalExp (getWarpTypeList cfg) i inp sts) hc2 hinv2
      rw [heq] at IH
      rw [hstep, warpedList_cons_none wt inp rest hav]
      refine ⟨?_, IH.2.1, IH.2.2.1, IH.2.2.2.1, IH.2.2.2.2.1, IH.2.2.2.2.2⟩
      intro p
      rw [contPixel_cons_none wt p (sts wt).didSetMetadata
        (sts wt).coaddTempExp.fluxMag0 inp rest hav]
      exact IH.1 p
    | some e =>
      have hcle : cleanExpB npix (avail inp wt) = true := cleanInputB_avail npix inp hc1 wt
      rw [hav] at hcle
      obtain ⟨hfault, hrec, hlen, hzp⟩ := cleanExpB_spec npix e hcle
      have heq : processCalExp (getWarpTypeList cfg) i inp sts wt
          = mergeStep ce ccd e (sts wt) := by
        rw [hchar, hav]
      obtain ⟨hm1, hm2, hm3, hm4, hminv⟩ := mergeStep_meta npix ce ccd e (sts wt) hlen hinv
      have hinv2 : StInv npix (processCalExp (getWarpTypeList cfg) i inp sts wt) := by
        rw [heq]
        exact hminv
      have IH := accumFrom_char cfg npix wt hwt rest (i + 1)
        (processCalExp (getWarpTypeList cfg) i inp sts) hc2 hinv2
      rw [heq] at IH
      rw [hstep, warpedList_cons_some wt inp rest e hav]
      have hflux : (mergeStep ce ccd e (sts wt)).coaddTempExp.fluxMag0
          = (if (sts wt).didSetMetadata then (sts wt).coaddTempExp.fluxMag0
             else if hasGoodB e then e.fluxMag0
             else (sts wt).coaddTempExp.fluxMag0) := by
        cases hds : (sts wt).didSetMetadata with
        | true => simp [(hm2 hds).1]
        | false =>
          cases hg : hasGoodB e with
          | true => simp [(hm3 hds hg).1]
          | false => simp [hm4 hds hg]
      refine ⟨?_, ?_, ?_, ?_, ?_, IH.2.2.2.2.2⟩
      · intro p
        rw [IH.1 p, mergeStep_get ce ccd e (sts wt) p,
          contPixel_cons_some wt p (sts wt).didSetMetadata
            (sts wt).coaddTempExp.fluxMag0 inp rest e hav]
        cases h1 : (sts wt).coaddTempExp.pixels.get? p with
        | none => rfl
        | some px =>
          cases px with
          | some v => rfl
          | none =>
            cases h2 : e.pixels.get? p with
            | none => rw [hm1, hflux]
            | some px2 =>
              cases px2 with
              | none => rw [hm1, hflux]
              | some v => rfl
      · rw [IH.2.1, hm1]
        cases hg : hasGoodB e with
        | true =>
          rw [List.find?_cons_of_pos _ hg]
          simp
        | false =>
          rw [List.find?_cons_of_neg _ (by simp [hg])]
          simp
      · intro hds
        have hmds : (mergeStep ce ccd e (sts wt)).didSetMetadata = true := by
          simp [hm1, hds]
        obtain ⟨f1, f2, f3⟩ := IH.2.2.1 hmds
        obtain ⟨g1, g2, g3⟩ := hm2 hds
        exact ⟨f1.trans g1, f2.trans g2, f3.trans g3⟩
      · intro hds F hF
        cases hg : hasGoodB e with
        | true =>
          rw [List.find?_cons_of_pos _ hg] at hF
          injection hF with hFe
          subst hFe
          have hmds : (mergeStep ce ccd e (sts wt)).didSetMetadata = true := by
            simp [hm1, hds, hg]
          obtain ⟨f1, f2, f3⟩ := IH.2.2.1 hmds
          obtain ⟨g1, g2, g3⟩ := hm3 hds hg
          exact ⟨f1.trans g1, f2.trans g2, f3.trans g3⟩
        | false =>
          rw [List.find?_cons_of_neg _ (by simp [hg])] at hF
          have hmds : (mergeStep ce ccd e (sts wt)).didSetMetadata = false := by
            simp [hm1, hds, hg]
          exact IH.2.2.2.1 hmds F hF
      · intro hds hnone
        have hg : hasGoodB e = false := by
          cases hgv : hasGoodB e
          · rfl
          · rw [List.find?_cons_of_pos _ hgv] at hnone
            cases hnone
        rw [List.find?_cons_of_neg _ (by simp [hg])] at hnone
        have hmds : (mergeStep ce ccd e (sts wt)).didSetMetadata = false := by
          simp [hm1, hds, hg]
        have hA := IH.2.2.2.2.1 hmds hnone
        rw [hA, hflux, hds, hg]
        simp

theorem goodAtB_iff (e : WExposure) (p : Nat) :
    goodAtB e p = true ↔ ∃ v, e.pixels.get? p = some (some v) := by
  unfold goodAtB
  cases h : e.pixels.get? p with
  | none => simp
  | some px => cases px <;> simp

theorem hasGoodB_of_goodAtB (e : WExposure) (p : Nat) (h : goodAtB e p = true) :
    hasGoodB e = true := by
  obtain ⟨v, hv⟩ := (goodAtB_iff e p).mp h
  exact List.any_eq_true.mpr ⟨some v, List.get?_mem hv, rfl⟩

theorem contPixel_no_contrib (wt : WarpType) (p : Nat) :
    ∀ (inputs : List CalExpInput) (ds : Bool) (zpA : ℚ),
      (warpedList wt inputs).find? (goodAt p) = none →
      contPixel wt p ds zpA inputs = none
  | [], _, _, _ => rfl
  | inp :: rest, ds, zpA, h => by
    cases hav : avail inp wt with
    | none =>
      rw [warpedList_cons_none wt inp rest hav] at h
      rw [contPixel_cons_none wt p ds zpA inp rest hav]
      exact contPixel_no_contrib wt p rest ds zpA h
    | some e =>
      rw [warpedList_cons_some wt inp rest e hav] at h
      have hge : goodAt p e = false := by
        cases hgv : goodAt p e
        · rfl
        · rw [List.find?_cons_of_pos _ hgv] at h
          cases h
      rw [List.find?_cons_of_neg _ (by simp [hge])] at h
      rw [contPixel_cons_some wt p ds zpA inp rest e hav]
      cases h2 : e.pixels.get? p with
      | none => exact contPixel_no_contrib wt p rest _ _ h
      | some px =>
        cases px with
        | none => exact contPixel_no_contrib wt p rest _ _ h
        | some v =>
          exfalso
          have hgt : goodAt p e = true := (goodAtB_iff e p).mpr ⟨v, h2⟩
          rw [hge] at hgt
          cases hgt

theorem contPixel_ds_true (wt : WarpType) (p : Nat) :
    ∀ (inputs : List CalExpInput) (zpA : ℚ) (A : WExposure) (v : ℚ),
      (warpedList wt inputs).find? (goodAt p) = some A →
      A.pixels.get? p = some (some v) →
      contPixel wt p true zpA inputs = some (v * (zpA / A.fluxMag0))
  | [], _, _, _, hF, _ => by simp [warpedList] at hF
  | inp :: rest, zpA, A, v, hF, hv => by
    cases hav : avail inp wt with
    | none =>
      rw [warpedList_cons_none wt inp rest hav] at hF
      rw [contPixel_cons_none wt p true zpA inp rest hav]
      exact contPixel_ds_true wt p rest zpA A v hF hv
    | some e =>
      rw [warpedList_cons_some wt inp rest e hav] at hF
      rw [contPixel_cons_some wt p true zpA inp rest e hav]
      cases hg : goodAt p e with
      | true =>
        rw [List.find?_cons_of_pos _ hg] at hF
        injection hF with hFe
        subst hFe
        rw [hv]
        simp
      | false =>
        rw [List.find?_cons_of_neg _ (by simp [hg])] at hF
        cases h2 : e.pixels.get? p with
        | none => simpa using contPixel_ds_true wt p rest zpA A v hF hv
        | some px =>
          cases px with
          | none => simpa using contPixel_ds_true wt p rest zpA A v hF hv
          | some v2 =>
            exfalso
            have hgt : goodAt p e = true := (goodAtB_iff e p).mpr ⟨v2, h2⟩
            rw [hg] at hgt
            cases hgt

theorem contPixel_ds_false (wt : WarpType) (p : Nat) (npix : Nat) :
    ∀ (inputs : List CalExpInput) (zpA : ℚ) (A F : WExposure) (v : ℚ),
      cleanInputsB npix inputs = true →
      (warpedList wt inputs).find? (goodAt p) = some A →
      (warpedList wt inputs).find? hasGoodB = some F →
      A.pixels.get? p = some (some v) →
      contPixel wt p false zpA inputs = some (v * (F.fluxMag0 / A.fluxMag0))
  | [], _, _, _, _, _, hF, _, _ => by simp [warpedList] at hF
  | inp :: rest, zpA, A, F, v, hcl, hA, hF, hv => by
    obtain ⟨hc1, hc2⟩ := cleanInputsB_split npix inp rest hcl
    cases hav : avail inp wt with
    | none =>
      rw [warpedList_cons_none wt inp rest hav] at hA hF
      rw [contPixel_cons_none wt p false zpA inp rest hav]
      exact contPixel_ds_false wt p npix rest zpA A F v hc2 hA hF hv
    | some e =>
      have hcle := cleanInputB_avail npix inp hc1 wt
      rw [hav] at hcle
      obtain ⟨-, -, -, hzp⟩ := cleanExpB_spec npix e hcle
      rw [warpedList_cons_some wt inp rest e hav] at hA hF
      rw [contPixel_cons_some wt p false zpA inp rest e hav]
      cases hgp : goodAt p e with
      | true =>
        rw [List.find?_cons_of_pos _ hgp] at hA
        injection hA with hAe
        subst hAe
        have hge : hasGoodB e = true := hasGoodB_of_goodAtB e p hgp
        rw [List.find?_cons_of_pos _ hge] at hF
        injection hF with hFe
        subst hFe
        rw [hv]
        simp [div_self hzp]
      | false =>
        have hnotss : ∀ vv, e.pixels.get? p = some (some vv) → False := by
          intro vv hvv
          have hgt : goodAt p e = true := (goodAtB_iff e p).mpr ⟨vv, hvv⟩
          rw [hgp] at hgt
          cases hgt
        rw [List.find?_cons_of_neg _ (by simp [hgp])] at hA
        cases hge : hasGoodB e with
        | true =>
          rw [List.find?_cons_of_pos _ hge] at hF
          injection hF with hFe
          subst hFe
          cases h2 : e.pixels.get? p with
          | none => simpa using contPixel_ds_true wt p rest e.fluxMag0 A v hA hv
          | some px =>
            cases px with
            | none => simpa using contPixel_ds_true wt p rest e.fluxMag0 A v hA hv
            | some vv => exact (hnotss vv h2).elim
        | false =>
          rw [List.find?_cons_of_neg _ (by simp [hge])] at hF
          cases h2 : e.pixels.get? p with
          | none =>
            simpa using contPixel_ds_false wt p npix rest zpA A F v hc2 hA hF hv
          | some px =>
            cases px with
            | none =>
              simpa using contPixel_ds_false wt p npix rest zpA A F v hc2 hA hF hv
            | some vv => exact (hnotss vv h2).elim

theorem accumulateFrom_append (wts : List WarpType) :
    ∀ (xs ys : List CalExpInput) (i : Nat) (sts : WarpType → VariantState),
      accumulateFrom wts i (xs ++ ys) sts
        = accumulateFrom wts (i + xs.length) ys (accumulateFrom wts i xs sts)
  | [], ys, i, sts => by simp [accumulateFrom]
  | x :: xs, ys, i, sts => by
    have h1 : accumulateFrom wts i ((x :: xs) ++ ys) sts
        = accumulateFrom wts (i + 1) (xs ++ ys) (processCalExp wts i x sts) := rfl
    have h2 : accumulateFrom wts i (x :: xs) sts
        = accumulateFrom wts (i + 1) xs (processCalExp wts i x sts) := rfl
    have h3 : i + (x :: xs).length = (i + 1) + xs.length := by
      simp [List.length_cons]
      omega
    rw [h1, h2, h3, accumulateFrom_append wts xs ys (i + 1) (processCalExp wts i x sts)]

theorem find?_first (q : WExposure → Bool) :
    ∀ (l1 : List WExposure) (a : WExposure) (l2 : List WExposure),
      (∀ x ∈ l1, q x = false) → q a = true → (l1 ++ a :: l2).find? q = some a
  | [], a, l2, _, ha => by simp [List.find?_cons_of_pos _ ha]
  | x :: l1, a, l2, hl, ha => by
    rw [List.cons_append,
      List.find?_cons_of_neg _ (by simp [hl x (List.mem_cons_self x l1)])]
    exact find?_first q l1 a l2 (fun y hy => hl y (List.mem_cons_of_mem x hy)) ha

theorem initial_get (npix : Nat) (wt : WarpType) (p : Nat) (hp : p < npix) :
    (initialStates npix wt).coaddTempExp.pixels.get? p = some none := by
  simp [initialStates, prepareEmptyExposure, List.get?_eq_getElem?,
    List.getElem?_replicate, hp]

/-- C1: first good pixel wins.  Under fault-free inputs aligned to the
patch grid, each canvas pixel is either still NO_DATA (exactly when no
available exposure has a good value there) or holds the value written by
the first exposure in group order with a good value at that pixel,
rescaled to the adopted zero-point; once a pixel holds a value after any
prefix of the group, every later exposure leaves it unchanged; and at a
pixel covered by an earlier contributor A and a later contributor B the
final value is the rescaled value of A, never of B. -/
theorem first_good_pixel_wins (cfg : Config) (npix : Nat) (inputs : List CalExpInput)
    (wt : WarpType) (p : Nat) (hwt : wt ∈ getWarpTypeList cfg)
    (hclean : cleanInputsB npix inputs = true) (hp : p < npix) :
    ((warpedList wt inputs).find? (goodAt p) = none →
        (accumulate cfg npix inputs wt).coaddTempExp.pixels.get? p = some none)
    ∧ (∀ A F v, (warpedList wt inputs).find? (goodAt p) = some A →
        (warpedList wt inputs).find? hasGoodB = some F →
        A.pixels.get? p = some (some v) →
        (accumulate cfg npix inputs wt).coaddTempExp.pixels.get? p
          = some (some (v * (F.fluxMag0 / A.fluxMag0))))
    ∧ (∀ k v, (accumulate cfg npix (inputs.take k) wt).coaddTempExp.pixels.get? p
          = some (some v) →
        (accumulate cfg npix inputs wt).coaddTempExp.pixels.get? p = some (some v))
    ∧ (∀ l1 A l2 B l3 F v, warpedList wt inputs = l1 ++ A :: (l2 ++ B :: l3) →
        (∀ E ∈ l1, goodAt p E = false) → goodAt p A = true → goodAt p B = true →
        (warpedList wt inputs).find? hasGoodB = some F →
        A.pixels.get? p = some (some v) →
        (accumulate cfg npix inputs wt).coaddTempExp.pixels.get? p
          = some (some (v * (F.fluxMag0 / A.fluxMag0)))) := by
  have M := accumFrom_char cfg npix wt hwt inputs 0 (initialStates npix) hclean
    (StInv_initial npix wt)
  have hM : (accumulate cfg npix inputs wt).coaddTempExp.pixels.get? p
      = some (contPixel wt p false 0 inputs) := by
    show (accumulateFrom (getWarpTypeList cfg) 0 inputs
        (initialStates npix) wt).coaddTempExp.pixels.get? p = _
    rw [M.1 p, initial_get npix wt p hp]
    rfl
  refine ⟨?_, ?_, ?_, ?_⟩
  · intro h
    rw [hM, contPixel_no_contrib wt p inputs false 0 h]
  · intro A F v hA hF hv
    rw [hM, contPixel_ds_false wt p npix inputs 0 A F v hclean hA hF hv]
  · intro k v hpre
    have hsplit : accumulateFrom (getWarpTypeList cfg) 0 inputs (initialStates npix)
        = accumulateFrom (getWarpTypeList cfg) (0 + (inputs.take k).length) (inputs.drop k)
            (accumulateFrom (getWarpTypeList cfg) 0 (inputs.take k) (initialStates npix)) := by
      rw [← accumulateFrom_append (getWarpTypeList cfg) (inputs.take k) (inputs.drop k) 0
        (initialStates npix), List.take_append_drop]
    have Mk := accumFrom_char cfg npix wt hwt (inputs.take k) 0 (initialStates npix)
      (cleanInputsB_take npix inputs k hclean) (StInv_initial npix wt)
    have Md := accumFrom_char cfg npix wt hwt (inputs.drop k) (0 + (inputs.take k).length)
      (accumulateFrom (getWarpTypeList cfg) 0 (inputs.take k) (initialStates npix))
      (cleanInputsB_drop npix inputs k hclean) Mk.2.2.2.2.2
    have hgoal : (accumulate cfg npix inputs wt).coaddTempExp.pixels.get? p
        = (accumulateFrom (getWarpTypeList cfg) (0 + (inputs.take k).length) (inputs.drop k)
            (accumulateFrom (getWarpTypeList cfg) 0 (inputs.take k) (initialStates npix))
            wt).coaddTempExp.pixels.get? p := by
      show (accumulateFrom (getWarpTypeList cfg) 0 inputs
          (initialStates npix) wt).coaddTempExp.pixels.get? p = _
      rw [hsplit]
    rw [hgoal, Md.1 p]
    rw [show (accumulateFrom (getWarpTypeList cfg) 0 (inputs.take k) (initialStates npix)
        wt).coaddTempExp.pixels.get? p = some (some v) from hpre]
  · intro l1 A l2 B l3 F v hdecomp hl1 hA hB hF hv
    have hfind : (warpedList wt inputs).find? (goodAt p) = some A := by
      rw [hdecomp]
      exact find?_first (goodAt p) l1 A (l2 ++ B :: l3) hl1 hA
    rw [hM, contPixel_ds_false wt p npix inputs 0 A F v hclean hfind hF hv]

theorem first_good_pixel_wins_witness :
    (accumulate cfgDirect 2 inputsAB WarpType.direct).coaddTempExp.pixels.get? 1
      = some (some (6 * (wexpA.fluxMag0 / wexpB.fluxMag0))) :=
  (first_good_pixel_wins cfgDirect 2 inputsAB WarpType.direct 1 (by decide) (by decide)
    (by decide)).2.1 wexpB wexpA 6 (by decide) (by decide) (by decide)

/-- C2: for each requested variant, the canvas adopts its calibration
scalar, filter identity and PSF from the first exposure that contributes
at least one good pixel, and every stored pixel value equals the raw
warped value multiplied by the adopted zero-point divided by the
contributing exposure zero-point. -/
theorem calibration_adoption (cfg : Config) (npix : Nat) (inputs : List CalExpInput)
    (wt : WarpType) (hwt : wt ∈ getWarpTypeList cfg)
    (hclean : cleanInputsB npix inputs = true) :
    (∀ F, (warpedList wt inputs).find? hasGoodB = some F →
        (accumulate cfg npix inputs wt).didSetMetadata = true
        ∧ (accumulate cfg npix inputs wt).coaddTempExp.fluxMag0 = F.fluxMag0
        ∧ (accumulate cfg npix inputs wt).coaddTempExp.filterId = F.filterId
        ∧ (accumulate cfg npix inputs wt).coaddTempExp.psf
            = PsfModel.exposurePsf F.psfId)
    ∧ (∀ p A F v, p < npix →
        (warpedList wt inputs).find? (goodAt p) = some A →
        (warpedList wt inputs).find? hasGoodB = some F →
        A.pixels.get? p = some (some v) →
        (accumulate cfg npix inputs wt).coaddTempExp.pixels.get? p
          = some (some (v * ((accumulate cfg npix inputs wt).coaddTempExp.fluxMag0
              / A.fluxMag0)))) := by
  have M := accumFrom_char cfg npix wt hwt inputs 0 (initialStates npix) hclean
    (StInv_initial npix wt)
  have hds0 : (initialStates npix wt).didSetMetadata = false := rfl
  constructor
  · intro F hF
    refine ⟨?_, M.2.2.2.1 hds0 F hF⟩
    show (accumulateFrom (getWarpTypeList cfg) 0 inputs
        (initialStates npix) wt).didSetMetadata = true
    rw [M.2.1, hF]
    simp
  · intro p A F v hp hA hF hv
    have hM : (accumulate cfg npix inputs wt).coaddTempExp.pixels.get? p
        = some (contPixel wt p false 0 inputs) := by
      show (accumulateFrom (getWarpTypeList cfg) 0 inputs
          (initialStates npix) wt).coaddTempExp.pixels.get? p = _
      rw [M.1 p, initial_get npix wt p hp]
      rfl
    have hflux : (accumulate cfg npix inputs wt).coaddTempExp.fluxMag0 = F.fluxMag0 :=
      (M.2.2.2.1 hds0 F hF).1
    rw [hM, hflux, contPixel_ds_false wt p npix inputs 0 A F v hclean hA hF hv]

theorem calibration_adoption_witness :
    ((accumulate cfgDirect 2 inputsAB WarpType.direct).didSetMetadata = true
      ∧ (accumulate cfgDirect 2 inputsAB WarpType.direct).coaddTempExp.fluxMag0
          = wexpA.fluxMag0
      ∧ (accumulate cfgDirect 2 inputsAB WarpType.direct).coaddTempExp.filterId
          = wexpA.filterId
      ∧ (accumulate cfgDirect 2 inputsAB WarpType.direct).coaddTempExp.psf
          = PsfModel.exposurePsf wexpA.psfId)
    ∧ (accumulate cfgDirect 2 inputsAB WarpType.direct).coaddTempExp.pixels.get? 1
      = some (some (6 * ((accumulate cfgDirect 2 inputsAB
          WarpType.direct).coaddTempExp.fluxMag0 / wexpB.fluxMag0))) :=
  ⟨(calibration_adoption cfgDirect 2 inputsAB WarpType.direct (by decide) (by decide)).1
      wexpA (by decide),
   (calibration_adoption cfgDirect 2 inputsAB WarpType.direct (by decide) (by decide)).2
      1 wexpB wexpA 6 (by decide) (by decide) (by decide) (by decide)⟩

end PipeTasks
